import Mathlib

/-!
Verification of the Migration-Agent correlation core.

This file gives a shallow embedding, in Lean 4, of the correlation and
normalization engine of the Migration-Agent repository
(`src/migration_agent_deb_rep.py` and `src/migration_agent_windows.py`):
the port/service indexer built by `get_network_info`, the communication
grapher `get_application_communication_map`, the dependency graph builder
`get_port_dependencies`, the well-known-port tables, and the
previous-day CPU utilization normalizers of both platforms.

Modelling conventions:
- Python dicts are insertion-ordered association lists; `d[k] = v` keeps
  the position of an existing key and appends a fresh one.
- Machine facts (psutil connections, the process table, filesystem and
  subprocess outcomes) are passed in explicitly as data.
- Python floats are modelled exactly over `Rat`; no claim in this
  development inspects a computed floating-point value, only the
  structure built around them.
- A Python statement that can only raise on inputs the surrounding
  pipeline never produces (e.g. unpacking `rsplit` of an address that
  the pipeline itself formatted as `ip:port`) is modelled by skipping
  that record; each such spot is marked with a comment.
-/

/-! ## Small Python-style string utilities (over `String.data`) -/

/-- Python `s.startswith(pre)`. -/
def pyStartsWith (s pre : String) : Bool :=
  pre.data.isPrefixOf s.data

/-- Python `c in s` for a single character. -/
def pyContainsChar (s : String) (c : Char) : Bool :=
  s.data.contains c

/-- ASCII whitespace as recognised by Python `str.strip()` / `str.split()`. -/
def pyIsSpace (c : Char) : Bool :=
  c = ' ' || c = '\t' || c = '\n' || c = '\r' || c = '\x0b' || c = '\x0c'

/-- Python `s.strip()` (strip whitespace from both ends). -/
def pyStrip (s : String) : String :=
  ⟨((s.data.dropWhile pyIsSpace).reverse.dropWhile pyIsSpace).reverse⟩

/-- Python `s.strip(chars)` restricted to one strip character. -/
def pyStripChar (s : String) (c : Char) : String :=
  ⟨((s.data.dropWhile (· = c)).reverse.dropWhile (· = c)).reverse⟩

/-- Split a character list at every occurrence of `sep`, keeping empty
    fields (Python `s.split(sep)` with an explicit separator). -/
def splitCharAux (sep : Char) : List Char → List Char → List (List Char)
  | [], acc => [acc.reverse]
  | c :: cs, acc =>
    if c = sep then acc.reverse :: splitCharAux sep cs []
    else splitCharAux sep cs (c :: acc)

/-- Python `s.split(sep)` for a one-character separator. -/
def pySplitChar (s : String) (sep : Char) : List String :=
  (splitCharAux sep s.data []).map List.asString

/-- Python `s.split()` (whitespace split, empty fields dropped). -/
def pySplitWs (s : String) : List String :=
  ((splitCharAux ' ' (s.data.map (fun c => if pyIsSpace c then ' ' else c)) []).filter
    (· ≠ [])).map List.asString

/-- Python `s.rsplit(sep, 1)` for a one-character separator: split at the
    last occurrence.  `none` when `sep` does not occur (where the source
    would return a one-element list and tuple unpacking would raise). -/
def pyRSplitOnceChar (s : String) (sep : Char) : Option (String × String) :=
  match (splitCharAux sep s.data []).reverse with
  | last :: (_ :: _ : List (List Char)) =>
    let pre := s.data.take (s.data.length - last.length - 1)
    some (⟨pre⟩, ⟨last⟩)
  | _ => none

/-- Python `s.rsplit("]:", 1)`: split at the last occurrence of the
    two-character separator `]:`.  `none` when it does not occur. -/
def pyRSplitBracketColon (s : String) : Option (String × String) :=
  let rec go : List Char → Option (List Char × List Char)
    | [] => none
    | [_] => none
    | a :: b :: rest =>
      match go (b :: rest) with
      | some (l, r) => some (a :: l, r)
      | none => if a = ']' && b = ':' then some ([], rest) else none
  (go s.data).map (fun (l, r) => (⟨l⟩, ⟨r⟩))

/-- Decimal digit test. -/
def isDigitChar (c : Char) : Bool :=
  '0' ≤ c && c ≤ '9'

/-- Numeric value of a decimal digit character. -/
def digitVal (c : Char) : Nat :=
  c.toNat - 48

/-- Value of a decimal digit string. -/
def digitsToNat (cs : List Char) : Nat :=
  cs.foldl (fun acc c => acc * 10 + digitVal c) 0

/-- Python `int(s)` restricted to the non-negative decimal strings that
    the pipeline actually produces (digits only).  `none` where Python
    would raise `ValueError`. -/
def pyIntNat (s : String) : Option Nat :=
  let t := pyStrip s
  if t.data ≠ [] && t.data.all isDigitChar then some (digitsToNat t.data) else none

/-- Fractional value of the digit string after a decimal point. -/
def fracVal (cs : List Char) : Rat :=
  cs.foldr (fun c acc => ((digitVal c : Rat) + acc) / 10) 0

/-- Python `float(s)` for finite decimal literals, modelled exactly over
    `Rat`: optional sign, digits with an optional fraction or a bare
    fraction, optional decimal exponent.  `none` where Python would raise
    `ValueError`.  (`inf`/`nan` spellings are not modelled; no claim
    depends on non-finite values.) -/
def pyFloat (s : String) : Option Rat :=
  let t := (pyStrip s).data
  let (sign, t) : Rat × List Char :=
    match t with
    | '+' :: rest => (1, rest)
    | '-' :: rest => (-1, rest)
    | _ => (1, t)
  let intPart := t.takeWhile isDigitChar
  let rest := t.dropWhile isDigitChar
  let (fracPart, rest2) : List Char × List Char :=
    match rest with
    | '.' :: r => (r.takeWhile isDigitChar, r.dropWhile isDigitChar)
    | _ => ([], rest)
  let hadDot : Bool := match rest with | '.' :: _ => true | _ => false
  if intPart = [] && fracPart = [] then none
  else
    let mantissa : Rat := (digitsToNat intPart : Rat) + fracVal fracPart
    match rest2 with
    | [] => some (sign * mantissa)
    | e :: r =>
      if (e = 'e' || e = 'E') && (hadDot || intPart ≠ []) then
        let (esign, digits) : Bool × List Char :=
          match r with
          | '+' :: d => (true, d)
          | '-' :: d => (false, d)
          | _ => (true, r)
        if digits ≠ [] && digits.all isDigitChar then
          let ex := digitsToNat digits
          some (sign * mantissa * (if esign then (10 : Rat) ^ ex else ((10 : Rat) ^ ex)⁻¹))
        else none
      else none

/-! ## Association lists as insertion-ordered Python dicts -/

/-- `d.get(k)` / `k in d` lookup. -/
def alistFind? {α : Type} (l : List (Nat × α)) (k : Nat) : Option α :=
  match l with
  | [] => none
  | (k₁, v) :: rest => if k₁ = k then some v else alistFind? rest k

/-- String-keyed lookup. -/
def salistFind? {α : Type} (l : List (String × α)) (k : String) : Option α :=
  match l with
  | [] => none
  | (k₁, v) :: rest => if k₁ = k then some v else salistFind? rest k

/-- `k in d`. -/
def alistHasKey {α : Type} (l : List (Nat × α)) (k : Nat) : Bool :=
  (alistFind? l k).isSome

/-- `k in d` for string keys. -/
def salistHasKey {α : Type} (l : List (String × α)) (k : String) : Bool :=
  (salistFind? l k).isSome

/-- Python `d[k] = v`: replace in place when the key exists, append when
    it is fresh. -/
def alistSet {α : Type} (l : List (Nat × α)) (k : Nat) (v : α) : List (Nat × α) :=
  match l with
  | [] => [(k, v)]
  | (k₁, v₁) :: rest =>
    if k₁ = k then (k₁, v) :: rest else (k₁, v₁) :: alistSet rest k v

/-- Update the value at an existing key in place (no-op when absent). -/
def alistUpdate {α : Type} (l : List (Nat × α)) (k : Nat) (f : α → α) : List (Nat × α) :=
  match l with
  | [] => []
  | (k₁, v₁) :: rest =>
    if k₁ = k then (k₁, f v₁) :: rest else (k₁, v₁) :: alistUpdate rest k f

/-- Update at an existing string key in place (no-op when absent). -/
def salistUpdate {α : Type} (l : List (String × α)) (k : String) (f : α → α) :
    List (String × α) :=
  match l with
  | [] => []
  | (k₁, v₁) :: rest =>
    if k₁ = k then (k₁, f v₁) :: rest else (k₁, v₁) :: salistUpdate rest k f

/-- `defaultdict(list)` append: `d[k].append(v)` creating `k` on first use. -/
def alistAppend {α : Type} (l : List (Nat × List α)) (k : Nat) (v : α) :
    List (Nat × List α) :=
  match l with
  | [] => [(k, [v])]
  | (k₁, vs) :: rest =>
    if k₁ = k then (k₁, vs ++ [v]) :: rest else (k₁, vs) :: alistAppend rest k v

/-! ## Facts consumed by the correlation core

`psutil.net_connections(kind="inet")` rows and the process table are the
external facts; the core only reads the fields modelled here. -/

/-- One process-table row (`psutil.Process(pid)` successful lookup):
    `name()`, `username()`, and the already-joined `" ".join(cmdline())`. -/
structure ProcFact where
  name : String
  username : String
  cmdline : String
deriving DecidableEq

/-- One `psutil` connection row.  `isStream` models
    `conn.type == socket.SOCK_STREAM` (equivalently, `"STREAM" in str(conn.type)`).
    `laddr` / `raddr` are the decomposed `(ip, port)` endpoints, absent
    when psutil reports none.  (`fd` and `family` are copied into the raw
    connection record by the source but never read downstream; they are
    omitted.) -/
structure ConnFact where
  isStream : Bool
  laddr : Option (String × Nat)
  raddr : Option (String × Nat)
  status : String
  pid : Option Nat
deriving DecidableEq

/-- The process table: pid to process facts; `none` models
    `psutil.NoSuchProcess` / `psutil.AccessDenied` on lookup. -/
def ProcTable : Type := List (Nat × ProcFact)

/-- Lookup in the process table. -/
def procLookup (procs : ProcTable) (pid : Nat) : Option ProcFact :=
  alistFind? procs pid

/-- `f"{ip}:{port}"` as applied to an optional endpoint (the
    `local_address` / `remote_address` fields of a connection record). -/
def fmtAddr : Option (String × Nat) → Option String
  | some (ip, port) => some (ip ++ ":" ++ toString port)
  | none => none

/-- Python truthiness of `conn.pid` (`None` and `0` are falsy). -/
def pidTruthy : Option Nat → Bool
  | some p => p ≠ 0
  | none => false

/-! ## `get_network_info` (migration_agent_deb_rep.py, lines 594-702)

Only the connection-correlation part is modelled: the interface/io-counter
sections read hardware counters that no claim mentions. -/

/-- The per-connection record `conn_info` built at lines 634-657.
    `isStream` stands for the stored `str(conn.type)` (read back only
    through `"STREAM" in conn["type"]`). -/
structure ConnInfo where
  isStream : Bool
  local_address : Option String
  remote_address : Option String
  status : String
  pid : Option Nat
  process_name : Option String
  process_user : Option String
  process_cmdline : Option String
deriving DecidableEq

/-- The `service_info` record stored per listening port (lines 665-673). -/
structure ServiceInfo where
  port : Nat
  protocol : String
  address : String
  pid : Option Nat
  process_name : Option String
  process_user : Option String
  process_cmdline : Option String
deriving DecidableEq

/-- A `port_service_map` entry (lines 678-681). -/
structure PortService where
  service : String
  pid : Option Nat
deriving DecidableEq

/-- Mutable state threaded through the `for conn in connections` loop. -/
structure NetState where
  connections : List ConnInfo
  listening_ports : List (Nat × ServiceInfo)
  established : List ConnInfo
  port_service_map : List (Nat × PortService)
  service_port_map : List (String × List Nat)
  process_connections : List (Nat × List ConnInfo)
deriving DecidableEq

/-- The empty loop state. -/
def netInit : NetState :=
  { connections := [], listening_ports := [], established := [],
    port_service_map := [], service_port_map := [], process_connections := [] }

/-- Lines 644-657: attach process fields to `conn_info` when `conn.pid`
    is truthy; on a successful lookup also record the connection under
    `self.process_connections[pid]`. -/
def attachProcess (procs : ProcTable) (s : NetState) (f : ConnFact) (ci : ConnInfo) :
    ConnInfo × NetState :=
  match f.pid with
  | some p =>
    if p ≠ 0 then
      match procLookup procs p with
      | some pr =>
        let ci := { ci with
          process_name := some pr.name,
          process_user := some pr.username,
          process_cmdline := some pr.cmdline }
        (ci, { s with process_connections := alistAppend s.process_connections p ci })
      | none =>
        ({ ci with process_name := none, process_user := none }, s)
    else (ci, s)
  | none => (ci, s)

/-- Lines 676-684: record the port in `port_service_map` /
    `service_port_map` when the owning process name is known. -/
def recordServiceMaps (s : NetState) (port : Nat) (pid : Option Nat)
    (pname : Option String) : NetState :=
  match pname with
  | some nm =>
    let s := { s with
      port_service_map := alistSet s.port_service_map port { service := nm, pid := pid } }
    let spm :=
      if salistHasKey s.service_port_map nm then s.service_port_map
      else s.service_port_map ++ [(nm, [])]
    { s with service_port_map := salistUpdate spm nm (· ++ [port]) }
  | none => s

/-- One iteration of the `for conn in connections` loop (lines 633-690). -/
def netStep (procs : ProcTable) (s : NetState) (f : ConnFact) : NetState :=
  let ci : ConnInfo :=
    { isStream := f.isStream,
      local_address := fmtAddr f.laddr,
      remote_address := fmtAddr f.raddr,
      status := f.status,
      pid := f.pid,
      process_name := none, process_user := none, process_cmdline := none }
  let (ci, s) := attachProcess procs s f ci
  let s :=
    if f.status = "LISTEN" then
      -- psutil always reports a local endpoint for a LISTEN socket; the
      -- source reads `conn.laddr.port` unconditionally here.
      match f.laddr with
      | some (ip, port) =>
        if alistHasKey s.listening_ports port then s
        else
          let svc : ServiceInfo :=
            { port := port,
              protocol := if f.isStream then "TCP" else "UDP",
              address := ip,
              pid := f.pid,
              process_name := ci.process_name,
              process_user := ci.process_user,
              process_cmdline := ci.process_cmdline }
          let s := { s with listening_ports := s.listening_ports ++ [(port, svc)] }
          recordServiceMaps s port f.pid ci.process_name
      | none => s
    else if f.status = "ESTABLISHED" then
      { s with established := s.established ++ [ci] }
    else s
  { s with connections := s.connections ++ [ci] }

/-- The network section assembled by `get_network_info` (the
    connection-related fields). -/
structure NetworkInfo where
  connections : List ConnInfo
  listening_ports : List ServiceInfo
  established_connections : List ConnInfo
  port_service_map : List (Nat × PortService)
  service_port_map : List (String × List Nat)
  process_connections : List (Nat × List ConnInfo)
deriving DecidableEq

/-- `sorted(listening_ports.values(), key=lambda x: x["port"])`.
    Insertion sort agrees with Python's stable sort; the keys of the
    dict being sorted are distinct ports. -/
def sortByPort (l : List ServiceInfo) : List ServiceInfo :=
  List.insertionSort (fun a b => a.port ≤ b.port) l

/-- The state after the whole `for conn in connections` loop. -/
def netFoldState (procs : ProcTable) (facts : List ConnFact) : NetState :=
  facts.foldl (netStep procs) netInit

/-- `get_network_info` over an explicit fact list and process table. -/
def get_network_info (procs : ProcTable) (facts : List ConnFact) : NetworkInfo :=
  let s := netFoldState procs facts
  { connections := s.connections,
    listening_ports := sortByPort (s.listening_ports.map Prod.snd),
    established_connections := s.established,
    port_service_map := s.port_service_map,
    service_port_map := s.service_port_map,
    process_connections := s.process_connections }

/-! ## Well-known port tables -/

/-- `common_ports` of `_identify_service_by_port`
    (migration_agent_deb_rep.py, lines 1000-1027). -/
def common_ports : List (Nat × String) :=
  [(20, "FTP-DATA"), (21, "FTP"), (22, "SSH"), (23, "Telnet"), (25, "SMTP"),
   (53, "DNS"), (80, "HTTP"), (110, "POP3"), (143, "IMAP"), (443, "HTTPS"),
   (445, "SMB"), (587, "SMTP-Submission"), (993, "IMAPS"), (995, "POP3S"),
   (1433, "MS-SQL"), (1521, "Oracle-DB"), (3306, "MySQL"), (5432, "PostgreSQL"),
   (5672, "AMQP/RabbitMQ"), (6379, "Redis"), (8080, "HTTP-Alt"), (8443, "HTTPS-Alt"),
   (9200, "Elasticsearch"), (27017, "MongoDB"), (11211, "Memcached"), (50000, "DB2")]

/-- `ServerInventory._identify_service_by_port` (Linux):
    `common_ports.get(int(port), f"Unknown-{port}")`. -/
def identify_service_by_port (port : Nat) : String :=
  (alistFind? common_ports port).getD ("Unknown-" ++ toString port)

/-- `well_known_ports` of `WindowsServerInventory.identify_service_by_port`
    (migration_agent_windows.py, lines 1203-1210). -/
def well_known_ports_windows : List (Nat × String) :=
  [(20, "FTP-DATA"), (21, "FTP"), (22, "SSH"), (23, "Telnet"), (25, "SMTP"),
   (53, "DNS"), (80, "HTTP"), (110, "POP3"), (143, "IMAP"), (443, "HTTPS"),
   (445, "SMB"), (3306, "MySQL"), (3389, "RDP"), (5432, "PostgreSQL"),
   (5900, "VNC"), (6379, "Redis"), (8080, "HTTP-Alt"), (8443, "HTTPS-Alt"),
   (27017, "MongoDB"), (1433, "MSSQL"), (1521, "Oracle")]

/-- `WindowsServerInventory.identify_service_by_port`:
    `well_known_ports.get(port, f"Port-{port}")`. -/
def identify_service_by_port_windows (port : Nat) : String :=
  (alistFind? well_known_ports_windows port).getD ("Port-" ++ toString port)

/-! ## `get_port_dependencies` (migration_agent_deb_rep.py, lines 898-995) -/

/-- A `client_info` record (lines 963-966). -/
structure DepClient where
  client_process : String
  client_pid : Nat
deriving DecidableEq

/-- A `listening_services` entry (lines 919-924). -/
structure ListeningService where
  service : String
  pid : Option Nat
  well_known_service : String
  clients : List DepClient
deriving DecidableEq

/-- A `dependency_graph` edge (lines 973-979). -/
structure DepEdge where
  client_process : String
  client_pid : Nat
  server_port : Nat
  server_service : String
  dependency_type : String
deriving DecidableEq

/-- A `port_usage_map` entry (lines 988-993). -/
structure PortUsage where
  service : String
  well_known_name : String
  client_count : Nat
  clients : List String
deriving DecidableEq

/-- The structure returned by `get_port_dependencies`.  (The
    `well_known_ports` key of the source dict is initialised empty and
    never populated; it is omitted.) -/
structure PortDeps where
  listening_services : List (Nat × ListeningService)
  port_usage_map : List (Nat × PortUsage)
  dependency_graph : List DepEdge
deriving DecidableEq

/-- Lines 945-956: parse a stored `remote_address` string back into
    `(ip, port)`; handles `[::1]:5432` and plain `ip:port` via
    right-splits.  `none` models the inputs on which the source's tuple
    unpacking or `int()` would raise — unreachable for addresses the
    pipeline formatted itself. -/
def parseRemoteAddr (addr : String) : Option (String × Nat) :=
  if pyStartsWith addr "[" then
    match pyRSplitBracketColon ⟨addr.data.drop 1⟩ with
    | some (ip, portStr) => (pyIntNat portStr).map (fun p => (ip, p))
    | none => none
  else
    match pyRSplitOnceChar addr ':' with
    | some (ip, portStr) => (pyIntNat portStr).map (fun p => (ip, p))
    | none => none

/-- Line 961: the dependency builder's loopback test,
    `remote_ip == "::1" or remote_ip.startswith("127.")`. -/
def portDepIsLocalIp (ip : String) : Bool :=
  ip = "::1" || pyStartsWith ip "127."

/-- Loop body for one established connection of a resolved client process
    (lines 934-979).  State: the `listening_services` dict (whose `clients`
    lists are mutated in place) and the `dependency_graph` list. -/
def portDepConnStep (name : String) (pid : Nat)
    (st : List (Nat × ListeningService) × List DepEdge) (c : ConnInfo) :
    List (Nat × ListeningService) × List DepEdge :=
  let (ls, dg) := st
  if c.status ≠ "ESTABLISHED" then (ls, dg)
  else
    match c.remote_address with
    | none => (ls, dg)
    | some addr =>
      match parseRemoteAddr addr with
      | none => (ls, dg)
      | some (ip, rport) =>
        if portDepIsLocalIp ip then
          match alistFind? ls rport with
          | some entry =>
            let ci : DepClient := { client_process := name, client_pid := pid }
            -- `if client_info not in clients: clients.append(client_info)`
            let ls :=
              if ci ∈ entry.clients then ls
              else alistUpdate ls rport (fun l => { l with clients := l.clients ++ [ci] })
            -- the edge append sits outside that guard: one edge per connection
            let edge : DepEdge :=
              { client_process := name, client_pid := pid, server_port := rport,
                server_service := entry.service, dependency_type := "port-level" }
            (ls, dg ++ [edge])
          | none => (ls, dg)
        else (ls, dg)

/-- Loop body for one `(pid, connections)` entry of
    `self.process_connections` (lines 929-982): a failed
    `psutil.Process(pid)` lookup skips the whole entry. -/
def portDepPidStep (procs : ProcTable)
    (st : List (Nat × ListeningService) × List DepEdge) (e : Nat × List ConnInfo) :
    List (Nat × ListeningService) × List DepEdge :=
  match procLookup procs e.1 with
  | none => st
  | some pr => e.2.foldl (portDepConnStep pr.name e.1) st

/-- `get_port_dependencies` over the state built by `get_network_info`. -/
def get_port_dependencies (procs : ProcTable)
    (port_service_map : List (Nat × PortService))
    (process_connections : List (Nat × List ConnInfo)) : PortDeps :=
  let ls0 : List (Nat × ListeningService) :=
    port_service_map.map (fun (port, si) =>
      (port, { service := si.service, pid := si.pid,
               well_known_service := identify_service_by_port port,
               clients := [] }))
  let (ls, dg) := process_connections.foldl (portDepPidStep procs) (ls0, [])
  let usage : List (Nat × PortUsage) :=
    ls.map (fun (port, info) =>
      (port, { service := info.service,
               well_known_name := info.well_known_service,
               client_count := info.clients.length,
               clients := info.clients.map (·.client_process) }))
  { listening_services := ls, port_usage_map := usage, dependency_graph := dg }

/-! ## `get_application_communication_map`
(migration_agent_deb_rep.py, lines 807-896) -/

/-- A `connection_detail` record (lines 840-845, enriched per branch). -/
structure ConnDetail where
  remote_host : String
  remote_port : Nat
  local_port : Option String
  protocol : String
  target_service : Option String
  connection_type : String
  service_name : Option String
deriving DecidableEq

/-- A `process_to_service` entry (lines 828-833). -/
structure ProcCommEntry where
  pid : Nat
  cmdline : String
  local_connections : List ConnDetail
  external_connections : List ConnDetail
deriving DecidableEq

/-- A `service_clients` entry (lines 859-863). -/
structure ServiceClient where
  client : String
  client_pid : Nat
  port : Nat
deriving DecidableEq

/-- A `communication_matrix` entry: the local and external branches append
    records with different key sets (lines 866-873 and 880-888). -/
inductive MatrixEntry where
  | localEdge (source_process : String) (source_pid : Nat) (target_service : String)
      (target_port : Nat) (protocol : String)
  | externalEdge (source_process : String) (source_pid : Nat) (target_host : String)
      (target_port : Nat) (protocol : String) (likely_service : String)
deriving DecidableEq

/-- The structure returned by `get_application_communication_map`
    (the `process_to_external` key of the source dict is initialised
    empty and never populated; it is omitted). -/
structure CommMap where
  process_to_service : List (String × ProcCommEntry)
  service_clients : List (String × List ServiceClient)
  communication_matrix : List MatrixEntry
deriving DecidableEq

/-- The empty communication map. -/
def commInit : CommMap :=
  { process_to_service := [], service_clients := [], communication_matrix := [] }

/-- Line 850: `self.port_service_map.get(remote_port, {}).get("service",
    f"unknown-port-{remote_port}")`. -/
def commTargetService (psm : List (Nat × PortService)) (remote_port : Nat) : String :=
  match alistFind? psm remote_port with
  | some e => e.service
  | none => "unknown-port-" ++ toString remote_port

/-- Line 848: the grapher's locality test,
    `remote_ip in ["127.0.0.1", "::1", "localhost"] or remote_ip.startswith("127.")`. -/
def commIsLocalIp (ip : String) : Bool :=
  ip = "127.0.0.1" || ip = "::1" || ip = "localhost" || pyStartsWith ip "127."

/-- Lines 836-838: `remote_ip, remote_port = conn["remote_address"].split(":")`
    followed by `int(remote_port)`.  The unpacking raises unless the split
    has exactly two fields (so any IPv6 remote raises), and `int` raises on
    a non-numeric port; a raise is caught only by the blanket handler at
    line 893, which abandons the whole loop.  `none` models the raise. -/
def commSplitRemote (addr : String) : Option (String × Nat) :=
  match pySplitChar addr ':' with
  | [ip, portStr] => (pyIntNat portStr).map (fun p => (ip, p))
  | _ => none

/-- Line 843: `conn["local_address"].split(":")[1] if conn["local_address"] else None`.
    Indexing `[1]` raises when the split has a single field; `none` on the
    outer option means the address was absent (Python `None`), the inner
    `none` models the raise. -/
def commLocalPort : Option String → Option (Option String)
  | none => some none
  | some la =>
    match (pySplitChar la ':').get? 1 with
    | some p => some (some p)
    | none => none

/-- One established connection of a resolved process (lines 835-888).
    `Sum.inl` aborts the whole grapher with the map accumulated so far
    (the blanket `except Exception` at line 893). -/
def commConnStep (psm : List (Nat × PortService)) (name : String) (pid : Nat)
    (m : CommMap) (c : ConnInfo) : Sum CommMap CommMap :=
  if c.status = "ESTABLISHED" && c.remote_address.isSome then
    match c.remote_address with
    | none => Sum.inr m
    | some addr =>
      match commSplitRemote addr with
      | none => Sum.inl m
      | some (remote_ip, remote_port) =>
        match commLocalPort c.local_address with
        | none => Sum.inl m
        | some lport =>
          let protocol := if c.isStream then "TCP" else "UDP"
          if commIsLocalIp remote_ip then
            let target_service := commTargetService psm remote_port
            let detail : ConnDetail :=
              { remote_host := remote_ip, remote_port := remote_port,
                local_port := lport, protocol := protocol,
                target_service := some target_service,
                connection_type := "local", service_name := none }
            let pts := salistUpdate m.process_to_service name
              (fun e => { e with local_connections := e.local_connections ++ [detail] })
            let m := { m with process_to_service := pts }
            let m :=
              if salistHasKey m.service_clients target_service then m
              else { m with service_clients := m.service_clients ++ [(target_service, [])] }
            let m :=
              match (salistFind? m.service_clients target_service :
                  Option (List ServiceClient)) with
              | some cs =>
                if name ∈ cs.map (fun c : ServiceClient => c.client) then m
                else
                  let newClient : ServiceClient :=
                    { client := name, client_pid := pid, port := remote_port }
                  let sc := salistUpdate m.service_clients target_service
                    (fun l => l ++ [newClient])
                  { m with service_clients := sc }
              | none => m
            let mx := m.communication_matrix ++
              [MatrixEntry.localEdge name pid target_service remote_port protocol]
            Sum.inr { m with communication_matrix := mx }
          else
            let service_name := identify_service_by_port remote_port
            let detail : ConnDetail :=
              { remote_host := remote_ip, remote_port := remote_port,
                local_port := lport, protocol := protocol,
                target_service := none,
                connection_type := "external", service_name := some service_name }
            let pts := salistUpdate m.process_to_service name
              (fun e => { e with external_connections := e.external_connections ++ [detail] })
            let m := { m with process_to_service := pts }
            let mx := m.communication_matrix ++
              [MatrixEntry.externalEdge name pid remote_ip remote_port protocol service_name]
            Sum.inr { m with communication_matrix := mx }
  else Sum.inr m

/-- Fold `commConnStep` over a process's connections, propagating an abort. -/
def commConnsFold (psm : List (Nat × PortService)) (name : String) (pid : Nat)
    (m : CommMap) : List ConnInfo → Sum CommMap CommMap
  | [] => Sum.inr m
  | c :: rest =>
    match commConnStep psm name pid m c with
    | Sum.inl m => Sum.inl m
    | Sum.inr m => commConnsFold psm name pid m rest

/-- One `(pid, connections)` entry (lines 821-891): a failed process
    lookup skips the entry (the `except (NoSuchProcess, AccessDenied)` at
    line 890); otherwise ensure the per-name `process_to_service` entry
    exists and walk the connections. -/
def commPidStep (procs : ProcTable) (psm : List (Nat × PortService))
    (m : CommMap) (e : Nat × List ConnInfo) : Sum CommMap CommMap :=
  match procLookup procs e.1 with
  | none => Sum.inr m
  | some pr =>
    let m :=
      if salistHasKey m.process_to_service pr.name then m
      else
        let entry : ProcCommEntry :=
          { pid := e.1, cmdline := pr.cmdline,
            local_connections := [], external_connections := [] }
        { m with process_to_service := m.process_to_service ++ [(pr.name, entry)] }
    commConnsFold psm pr.name e.1 m e.2

/-- Fold over the `process_connections` entries, stopping on abort. -/
def commPidsFold (procs : ProcTable) (psm : List (Nat × PortService))
    (m : CommMap) : List (Nat × List ConnInfo) → CommMap
  | [] => m
  | e :: rest =>
    match commPidStep procs psm m e with
    | Sum.inl m => m
    | Sum.inr m => commPidsFold procs psm m rest

/-- `get_application_communication_map` over the state built by
    `get_network_info`. -/
def get_application_communication_map (procs : ProcTable)
    (port_service_map : List (Nat × PortService))
    (process_connections : List (Nat × List ConnInfo)) : CommMap :=
  commPidsFold procs port_service_map commInit process_connections

/-! ## Values stored in the `cpu_history` result dicts

The two `get_previous_day_cpu_utilization` variants build Python dicts
whose values range over booleans, `None`, strings, numbers, lists of
strings, and a handful of fixed-shape sub-records.  `PyVal` is the typed
union of exactly those shapes; numbers carried by floats are modelled
over `Rat`. -/

/-- The `Average:` record parsed from sar output (lines 510-517). -/
structure SarAvg where
  user : Rat
  nice : Rat
  system : Rat
  iowait : Rat
  steal : Rat
  idle : Rat
deriving DecidableEq

/-- One `hourly_data` row parsed from sar output (lines 526-535). -/
structure SarRow where
  time : String
  cpu : String
  user : Rat
  nice : Rat
  system : Rat
  iowait : Rat
  steal : Rat
  idle : Rat
deriving DecidableEq

/-- One Windows `data_point` (built at lines 696-728 / 817-845). -/
structure WinRow where
  timestamp : Option String
  cpu_percent : Option Rat
  memory_available_mb : Option Rat
  disk_percent : Option Rat
deriving DecidableEq

/-- The Windows `average` record (lines 737-741 / 852-856). -/
structure WinAvg where
  total : Rat
  minV : Rat
  maxV : Rat
deriving DecidableEq

/-- Values stored under the keys of a `cpu_history` dict. -/
inductive PyVal where
  | pyNone
  | pyBool (b : Bool)
  | pyStr (s : String)
  | pyNat (n : Nat)
  | emptyDict
  | strList (l : List String)
  | sarAvg (a : SarAvg)
  | sarRows (r : List SarRow)
  | winAvg (a : WinAvg)
  | winRows (r : List WinRow)
  | debugInfo (csv_files_processed : Nat) (total_rows_found : Nat) (suggestion : String)
deriving DecidableEq

/-- Python `d[k] = v` for the string-keyed result dicts. -/
def salistSet {α : Type} (l : List (String × α)) (k : String) (v : α) :
    List (String × α) :=
  match l with
  | [] => [(k, v)]
  | (k₁, v₁) :: rest =>
    if k₁ = k then (k₁, v) :: rest else (k₁, v₁) :: salistSet rest k v

/-- The result dict type of both CPU collectors. -/
abbrev CpuDict : Type := List (String × PyVal)

/-- Set a key on a cpu-history dict. -/
def cpuSet (d : CpuDict) (k : String) (v : PyVal) : CpuDict :=
  salistSet d k v

/-! ## `get_previous_day_cpu_utilization` (Linux, lines 458-549) -/

/-- Outcome of `subprocess.run(["sar", "-u", "-f", sa_file_path], ...)`. -/
inductive SarOutcome where
  | toolMissing
  | timedOut
  | completed (returncode : Int) (stdout : String) (stderr : String)
deriving DecidableEq

/-- The environment facts the Linux collector reads. -/
structure SarEnv where
  hasRpm : Bool
  dayStr : String
  dateStr : String
  saFileExists : Bool
  sarRun : SarOutcome
deriving DecidableEq

/-- The dict initialised at lines 460-467. -/
def cpuInitLinux : CpuDict :=
  [("available", .pyBool false), ("date", .pyNone), ("average", .emptyDict),
   ("hourly_data", .sarRows []), ("raw_output", .pyNone), ("error", .pyNone)]

/-- Append a parsed row to the `hourly_data` entry of the dict. -/
def cpuAppendRow (d : CpuDict) (row : SarRow) : CpuDict :=
  match salistFind? d "hourly_data" with
  | some (.sarRows rs) => cpuSet d "hourly_data" (.sarRows (rs ++ [row]))
  | _ => d

/-- The `Average:` branch (lines 507-517): with at least 8 fields, six
    `float()` conversions run unguarded — a failure raises `ValueError`,
    caught only by the function's outer handler.  `Sum.inl` carries the
    dict state at the raise together with the offending token. -/
def sarAverageLine (d : CpuDict) (parts : List String) : Sum (CpuDict × String) CpuDict :=
  if parts.length ≥ 8 then
    match pyFloat (parts.getD 2 ""), pyFloat (parts.getD 3 ""), pyFloat (parts.getD 4 ""),
          pyFloat (parts.getD 5 ""), pyFloat (parts.getD 6 ""), pyFloat (parts.getD 7 "") with
    | some u, some n, some sy, some io, some st, some idl =>
      Sum.inr (cpuSet d "average" (.sarAvg
        { user := u, nice := n, system := sy, iowait := io, steal := st, idle := idl }))
    | _, _, _, _, _, _ =>
      -- the first failing float() raises; the claims never read the message text
      Sum.inl (d, "could not convert string to float")
  else Sum.inr d

/-- The timestamped-row branch (lines 520-538): conversion failures and
    short rows are swallowed by the inner `except (ValueError, IndexError)`
    and the row is skipped. -/
def sarDataLine (d : CpuDict) (parts : List String) : CpuDict :=
  if parts.length ≥ 8 &&
      (pyContainsChar (parts.getD 0 "") ':' || pyContainsChar (parts.getD 1 "") ':') then
    let tc := if pyContainsChar (parts.getD 0 "") ':' then 0 else 1
    match parts.get? tc, parts.get? (tc + 1), parts.get? (tc + 2), parts.get? (tc + 3),
          parts.get? (tc + 4), parts.get? (tc + 5), parts.get? (tc + 6), parts.get? (tc + 7) with
    | some t, some cpuCol, some p2, some p3, some p4, some p5, some p6, some p7 =>
      match pyFloat p2, pyFloat p3, pyFloat p4, pyFloat p5, pyFloat p6, pyFloat p7 with
      | some u, some n, some sy, some io, some st, some idl =>
        cpuAppendRow d
          { time := t, cpu := cpuCol, user := u, nice := n, system := sy,
            iowait := io, steal := st, idle := idl }
      | _, _, _, _, _, _ => d
    | _, _, _, _, _, _, _, _ => d
  else d

/-- One iteration of the `for line in lines` parse loop (lines 499-538). -/
def sarParseLine (d : CpuDict) (line0 : String) : Sum (CpuDict × String) CpuDict :=
  let line := pyStrip line0
  if line = "" then Sum.inr d
  else if pyStartsWith line "Average:" then sarAverageLine d (pySplitWs line)
  else if pyContainsChar line ':' && !pyStartsWith line "Linux" &&
      !pyStartsWith line "Average" then
    Sum.inr (sarDataLine d (pySplitWs line))
  else Sum.inr d

/-- Fold the parse loop over the lines, propagating a raise. -/
def sarParseLines (d : CpuDict) : List String → Sum (CpuDict × String) CpuDict
  | [] => Sum.inr d
  | l :: rest =>
    match sarParseLine d l with
    | Sum.inl e => Sum.inl e
    | Sum.inr d => sarParseLines d rest

/-- `ServerInventory.get_previous_day_cpu_utilization` over explicit
    environment facts. -/
def get_previous_day_cpu_utilization_linux (env : SarEnv) : CpuDict :=
  let d := cpuInitLinux
  let sa_file_path :=
    (if env.hasRpm then "/var/log/sa/sa" else "/var/log/sysstat/sa") ++ env.dayStr
  if !env.saFileExists then
    cpuSet d "error" (.pyStr ("Sysstat file not found: " ++ sa_file_path))
  else
    match env.sarRun with
    | .toolMissing =>
      cpuSet d "error" (.pyStr "sar command not found. Install sysstat package.")
    | .timedOut => cpuSet d "error" (.pyStr "sar command timed out")
    | .completed rc out errTxt =>
      if rc = 0 then
        let d := cpuSet d "available" (.pyBool true)
        let d := cpuSet d "date" (.pyStr env.dateStr)
        let d := cpuSet d "raw_output" (.pyStr out)
        let lines := pySplitChar (pyStrip out) '\n'
        match sarParseLines d lines with
        | Sum.inr d => d
        | Sum.inl (d, tok) =>
          cpuSet d "error"
            (.pyStr ("Error collecting previous day CPU data: " ++ tok))
      else cpuSet d "error" (.pyStr ("sar command failed: " ++ errTxt))

/-! ## `get_previous_day_cpu_utilization` (Windows, lines 601-894) -/

/-- `sub` occurs as a contiguous run of `l`. -/
def charInfix (sub : List Char) : List Char → Bool
  | [] => sub.isPrefixOf []
  | c :: cs => sub.isPrefixOf (c :: cs) || charInfix sub cs

/-- Python `sub in s` substring containment. -/
def pyContainsSub (s sub : String) : Bool :=
  charInfix sub.data s.data

/-- Python `s.endswith(suf)`. -/
def pyEndsWith (s suf : String) : Bool :=
  suf.data.isSuffixOf s.data

/-- Python `round(x, 2)` modelled over `Rat`.  (Python rounds floats
    half-to-even; no claim reads a rounded value, so nearest-integer
    rounding of `100·x` is used.) -/
def pyRound2 (q : Rat) : Rat :=
  ((round (q * 100) : ℤ) : Rat) / 100

/-- Sum of a list of rationals. -/
def ratSum (l : List Rat) : Rat :=
  l.foldl (· + ·) 0

/-- Python `min(l)` for a nonempty list (`0` on `[]`, which the source
    never reaches: it is guarded by `if cpu_values:`). -/
def ratMin : List Rat → Rat
  | [] => 0
  | x :: xs => xs.foldl min x

/-- Python `max(l)` for a nonempty list, same guard. -/
def ratMax : List Rat → Rat
  | [] => 0
  | x :: xs => xs.foldl max x

/-- One file seen under the Performance Monitor log directory.
    `statOk` models `os.path.getmtime` succeeding, `recent` the
    `(now - mtime).days <= 2` test, `openOk` the `open`/`csv.reader`
    calls succeeding (`errMsg` is the caught exception text otherwise),
    and `rows` the parsed CSV rows. -/
structure WinFile where
  name : String
  statOk : Bool
  recent : Bool
  openOk : Bool
  errMsg : String
  rows : List (List String)
deriving DecidableEq

/-- Outcome of the `relog` conversion subprocess: `raised` covers
    `subprocess.TimeoutExpired` and any spawn failure (both land in the
    `except Exception` at line 870), `completed` a finished run. -/
inductive RelogOutcome where
  | raised (msg : String)
  | completed (returncode : Int) (stderr : String)
deriving DecidableEq

/-- The environment facts the Windows collector reads. -/
structure WinEnv where
  dateStr : String
  dirExists : Bool
  files : List WinFile
  pmExists : Bool
  pmRunning : Bool
  pmStatusRaises : Bool
  pmStatusMsg : String
  relog : RelogOutcome
  relogCsvExists : Bool
  relogOpenOk : Bool
  relogOpenMsg : String
  relogRows : List (List (String × String))
deriving DecidableEq

/-- Column indices discovered from a CSV header row (lines 674-687). -/
structure ColIdx where
  ts : Option Nat
  cpu : Option Nat
  mem : Option Nat
  dsk : Option Nat
deriving DecidableEq

/-- Python truthiness of an index variable: `if not cpu_idx` re-matches
    both an undiscovered column and one discovered at index 0. -/
def winFalsyIdx : Option Nat → Bool
  | none => true
  | some i => i = 0

/-- Lines 679-687: discover column indices by substring-matching each
    header, first truthy match per field wins. -/
def findCols (headers : List String) : ColIdx :=
  headers.enum.foldl
    (fun acc (p : Nat × String) =>
      let (i, h) := p
      let acc := if winFalsyIdx acc.ts &&
          (pyContainsSub h "Time" || pyContainsSub h "PDH-CSV") then
        { acc with ts := some i } else acc
      let acc := if winFalsyIdx acc.cpu &&
          (pyContainsSub h "Processor Time" && pyContainsSub h "_Total") then
        { acc with cpu := some i } else acc
      let acc := if winFalsyIdx acc.mem && pyContainsSub h "Available MBytes" then
        { acc with mem := some i } else acc
      let acc := if winFalsyIdx acc.dsk &&
          (pyContainsSub h "Disk Time" && pyContainsSub h "_Total") then
        { acc with dsk := some i } else acc
      acc)
    { ts := none, cpu := none, mem := none, dsk := none }

/-- Line 693: `filter(None, [timestamp_idx, cpu_idx, memory_idx, disk_idx])`
    keeps the truthy entries (dropping both `None` and index `0`). -/
def truthyIdxList (c : ColIdx) : List Nat :=
  [c.ts, c.cpu, c.mem, c.dsk].filterMap (fun o =>
    match o with
    | some i => if i ≠ 0 then some i else none
    | none => none)

/-- Python `max` of a nonempty `Nat` list. -/
def natMax : List Nat → Nat
  | [] => 0
  | x :: xs => xs.foldl max x

/-- Lines 693-728: process one CSV data row, accumulating
    `(cpu_values, hourly_data)`. -/
def winCsvRow (c : ColIdx) (st : List Rat × List WinRow) (row : List String) :
    List Rat × List WinRow :=
  let (cv, hd) := st
  if row.length ≤ natMax (truthyIdxList c) then st
  else
    let tsv : Option String :=
      match c.ts with
      | some i => if row.length > i then some (pyStripChar (row.getD i "") '"') else none
      | none => none
    let cpuv : Option Rat :=
      match c.cpu with
      | some i =>
        if row.length > i then pyFloat (pyStripChar (row.getD i "") '"') else none
      | none => none
    let memv : Option Rat :=
      match c.mem with
      | some i =>
        if row.length > i then pyFloat (pyStripChar (row.getD i "") '"') else none
      | none => none
    let dskv : Option Rat :=
      match c.dsk with
      | some i =>
        if row.length > i then pyFloat (pyStripChar (row.getD i "") '"') else none
      | none => none
    let cv := match cpuv with | some v => cv ++ [v] | none => cv
    let dp : WinRow :=
      { timestamp := tsv, cpu_percent := cpuv.map pyRound2,
        memory_available_mb := memv.map pyRound2, disk_percent := dskv.map pyRound2 }
    let nonempty := tsv.isSome || cpuv.isSome || memv.isSome || dskv.isSome
    let hd := if nonempty && (cpuv.isSome || memv.isSome) then hd ++ [dp] else hd
    (cv, hd)

/-- `file_errors` accumulation (lines 732-733):
    `cpu_history.get("file_errors", [])` then append. -/
def appendFileError (d : CpuDict) (msg : String) : CpuDict :=
  let cur := match salistFind? d "file_errors" with | some (.strList l) => l | _ => []
  cpuSet d "file_errors" (.strList (cur ++ [msg]))

/-- Lines 659-733: process one CSV file.  A failed open lands in
    `file_errors`; `max()` over an all-falsy index list raises on the
    first data row and also lands in `file_errors` (per-file handler at
    line 730), abandoning that file only. -/
def winCsvFile (st : (List Rat × List WinRow) × CpuDict) (f : WinFile) :
    (List Rat × List WinRow) × CpuDict :=
  let (acc, d) := st
  if !f.openOk then (acc, appendFileError d (f.name ++ ": " ++ f.errMsg))
  else
    match f.rows with
    | [] => (acc, d)
    | [_] => (acc, d)
    | headers :: dataRows =>
      let cols := findCols headers
      if dataRows ≠ [] && truthyIdxList cols = [] then
        (acc, appendFileError d (f.name ++ ": max() arg is an empty sequence"))
      else (dataRows.foldl (winCsvRow cols) acc, d)

/-- Lines 735-755: publish the accumulated CSV statistics, or the
    no-data diagnostics. -/
def winPublish (csvFilesProcessed : Nat) (acc : List Rat × List WinRow)
    (d : CpuDict) : CpuDict :=
  let (cv, hd) := acc
  if cv ≠ [] then
    let d := cpuSet d "available" (.pyBool true)
    let d := cpuSet d "average" (.winAvg
      { total := pyRound2 (ratSum cv / (cv.length : Rat)),
        minV := pyRound2 (ratMin cv), maxV := pyRound2 (ratMax cv) })
    let d := cpuSet d "data_points" (.pyNat cv.length)
    let d := cpuSet d "hourly_data" (.winRows hd)
    let d := cpuSet d "sample_interval_minutes" (.pyNat 5)
    cpuSet d "total_samples" (.pyNat hd.length)
  else
    let d := cpuSet d "error" (.pyStr "CSV files found but no valid CPU data extracted")
    let d := cpuSet d "note" (.pyStr "Performance Monitor may have just started. Wait a few minutes for data collection, or check that the collector is running properly.")
    cpuSet d "debug_info"
      (.debugInfo csvFilesProcessed hd.length
        "Run diagnose_csv.py to inspect the CSV file contents")

/-- Lines 650-759: the direct-CSV branch. -/
def winCsvBranch (csvFiles : List WinFile) (d : CpuDict) : CpuDict :=
  let (acc, d) := csvFiles.foldl winCsvFile (([], []), d)
  winPublish csvFiles.length acc d

/-- Column keys discovered from the first `DictReader` row
    (lines 803-813). -/
structure ColKeys where
  ts : Option String
  cpu : Option String
  mem : Option String
  dsk : Option String
deriving DecidableEq

/-- Python truthiness of a key variable (`if not timestamp_key`):
    undiscovered, or discovered as the empty-string header. -/
def winFalsyKey : Option String → Bool
  | none => true
  | some k => k = ""

/-- Lines 804-813: discover column keys from the first row's headers. -/
def findKeys (headers : List String) : ColKeys :=
  headers.foldl
    (fun acc k =>
      let acc := if winFalsyKey acc.ts &&
          (pyContainsSub k "PDH-CSV" || pyContainsSub k "Time") then
        { acc with ts := some k } else acc
      let acc := if winFalsyKey acc.cpu &&
          (pyContainsSub k "Processor Time" && pyContainsSub k "_Total") then
        { acc with cpu := some k } else acc
      let acc := if winFalsyKey acc.mem && pyContainsSub k "Available MBytes" then
        { acc with mem := some k } else acc
      let acc := if winFalsyKey acc.dsk &&
          (pyContainsSub k "Disk Time" && pyContainsSub k "_Total") then
        { acc with dsk := some k } else acc
      acc)
    { ts := none, cpu := none, mem := none, dsk := none }

/-- `key and row.get(key)` truthiness: key discovered and non-empty,
    value present and non-empty. -/
def rowGetTruthy (row : List (String × String)) : Option String → Option String
  | none => none
  | some k =>
    if k = "" then none
    else
      match salistFind? row k with
      | some v => if v ≠ "" then some v else none
      | none => none

/-- Lines 815-848: process one converted-`blg` row. -/
def winBlgRow (ck : ColKeys) (st : List Rat × List WinRow)
    (row : List (String × String)) : List Rat × List WinRow :=
  let (cv, hd) := st
  let tsv : Option String := rowGetTruthy row ck.ts
  let cpuv : Option Rat := (rowGetTruthy row ck.cpu).bind pyFloat
  let memv : Option Rat := (rowGetTruthy row ck.mem).bind pyFloat
  let dskv : Option Rat := (rowGetTruthy row ck.dsk).bind pyFloat
  let cv := match cpuv with | some v => cv ++ [v] | none => cv
  let dp : WinRow :=
    { timestamp := tsv, cpu_percent := cpuv.map pyRound2,
      memory_available_mb := memv.map pyRound2, disk_percent := dskv.map pyRound2 }
  let nonempty := tsv.isSome || cpuv.isSome || memv.isSome || dskv.isSome
  let hd := if nonempty && (cpuv.isSome || memv.isSome) then hd ++ [dp] else hd
  (cv, hd)

/-- Lines 762-871: the binary-log branch around the `relog` helper.
    A timeout or spawn failure lands in `extraction_error`; a nonzero
    exit (or missing output file) records the captured stderr in
    `relog_error`; a failed open/parse of the converted CSV lands in
    `parse_error`.  None of these touches the `error` key. -/
def winBlgBranch (env : WinEnv) (d : CpuDict) : CpuDict :=
  match env.relog with
  | .raised msg => cpuSet d "extraction_error" (.pyStr msg)
  | .completed rc stderr =>
    if rc = 0 && env.relogCsvExists then
      if !env.relogOpenOk then cpuSet d "parse_error" (.pyStr env.relogOpenMsg)
      else
        match env.relogRows with
        | [] => d
        | firstRow :: _ =>
          let ck := findKeys (firstRow.map Prod.fst)
          let acc := env.relogRows.foldl (winBlgRow ck) ([], [])
          -- lines 850-860 repeat the publication of lines 735-745 minus
          -- the no-data diagnostics
          let (cv, hd) := acc
          if cv ≠ [] then
            let d := cpuSet d "available" (.pyBool true)
            let d := cpuSet d "average" (.winAvg
              { total := pyRound2 (ratSum cv / (cv.length : Rat)),
                minV := pyRound2 (ratMin cv), maxV := pyRound2 (ratMax cv) })
            let d := cpuSet d "data_points" (.pyNat cv.length)
            let d := cpuSet d "hourly_data" (.winRows hd)
            let d := cpuSet d "sample_interval_minutes" (.pyNat 5)
            cpuSet d "total_samples" (.pyNat hd.length)
          else d
    else cpuSet d "relog_error" (.pyStr stderr)

/-- Lines 873-874: `if not cpu_history["available"]`, set the generic
    note. -/
def winNoteIfUnavailable (d : CpuDict) : CpuDict :=
  match salistFind? d "available" with
  | some (.pyBool true) => d
  | _ => cpuSet d "note" (.pyStr "Performance Monitor logs found but data extraction needs more time or configuration.")

/-- `WindowsServerInventory.get_previous_day_cpu_utilization` over
    explicit environment facts.  The initial dict (lines 603-610) is the
    same as the Linux one. -/
def get_previous_day_cpu_utilization_windows (env : WinEnv) : CpuDict :=
  let d := cpuInitLinux
  let d := cpuSet d "date" (.pyStr env.dateStr)
  let perf_log_dir := "C:\\PerfLogs\\Admin\\SystemInventoryCPU"
  if env.dirExists then
    let visible := env.files.filter (fun f => f.statOk && f.recent)
    let log_files := visible.filter (fun f => pyEndsWith f.name ".blg")
    let csv_files := visible.filter
      (fun f => !pyEndsWith f.name ".blg" && pyEndsWith f.name ".csv")
    let files_to_process := if csv_files ≠ [] then csv_files else log_files
    if files_to_process ≠ [] then
      let d := cpuSet d "log_files_found"
        (.strList (files_to_process.map (fun f => f.name)))
      let d := cpuSet d "file_type" (.pyStr (if csv_files ≠ [] then "csv" else "blg"))
      let d :=
        if csv_files ≠ [] then winCsvBranch csv_files d
        else winBlgBranch env d
      winNoteIfUnavailable d
    else
      let d := cpuSet d "error"
        (.pyStr ("No Performance Monitor logs (.csv or .blg) found in " ++ perf_log_dir))
      cpuSet d "note" (.pyStr "Data collector may need to run for at least 24 hours to collect historical data.")
  else
    -- `check_performance_monitor_status` runs subprocesses; a raise there
    -- is caught by the outer handler at line 891
    if env.pmStatusRaises then
      cpuSet d "error"
        (.pyStr ("Error collecting previous day CPU data: " ++ env.pmStatusMsg))
    else if !env.pmExists then
      let d := cpuSet d "error" (.pyStr "Performance Monitor data collector not configured")
      cpuSet d "note" (.pyStr "Run with --enable-perfmon to automatically configure CPU data collection")
    else
      let d := cpuSet d "error"
        (.pyStr ("Performance Monitor log directory not found: " ++ perf_log_dir))
      if env.pmRunning then
        cpuSet d "note" (.pyStr "Data collector is running but needs time to collect data (wait 24 hours)")
      else
        cpuSet d "note" (.pyStr "Data collector exists but is not running. Run with --enable-perfmon to start it.")

/-! ## `collect_all` (migration_agent_deb_rep.py, lines 1618-1695)

Only the core sections are computed; every section the spec declares an
external collaborator is carried as an opaque tag.  The Python original
threads `port_service_map` / `process_connections` from
`get_network_info` into the two later stages through `self`. -/

/-- A top-level inventory section. -/
inductive TopSection where
  | otherSec (tag : String)
  | cpuHistorySec (d : CpuDict)
  | networkSec (n : NetworkInfo)
  | appCommSec (m : CommMap)
  | portDepsSec (p : PortDeps)
deriving DecidableEq

/-- `collect_all`: the full inventory dict, in source key order. -/
def collect_all (procs : ProcTable) (facts : List ConnFact) (cpuEnv : SarEnv) :
    List (String × TopSection) :=
  let cpu_history := get_previous_day_cpu_utilization_linux cpuEnv
  let network := get_network_info procs facts
  let app_comm := get_application_communication_map procs
    network.port_service_map network.process_connections
  let port_deps := get_port_dependencies procs
    network.port_service_map network.process_connections
  [("timestamp", .otherSec "timestamp"),
   ("system", .otherSec "system"),
   ("os", .otherSec "os"),
   ("cpu", .otherSec "cpu"),
   ("cpu_history_previous_day", .cpuHistorySec cpu_history),
   ("sysstat_service_status", .otherSec "sysstat_service_status"),
   ("memory", .otherSec "memory"),
   ("disks", .otherSec "disks"),
   ("network", .networkSec network),
   ("service_dependencies", .otherSec "service_dependencies"),
   ("application_communication", .appCommSec app_comm),
   ("port_dependencies", .portDepsSec port_deps),
   ("docker", .otherSec "docker"),
   ("firewall", .otherSec "firewall"),
   ("users", .otherSec "users"),
   ("packages", .otherSec "packages"),
   ("services", .otherSec "services"),
   ("top_processes", .otherSec "top_processes")]

/-! ## Association-list lemmas -/

theorem alistFind?_eq_none_iff {α : Type} (l : List (Nat × α)) (k : Nat) :
    alistFind? l k = none ↔ ∀ v, (k, v) ∉ l := by
  induction l with
  | nil => simp [alistFind?]
  | cons hd tl ih =>
    obtain ⟨k₁, v₁⟩ := hd
    by_cases h : k₁ = k
    · subst h
      refine iff_of_false (by simp [alistFind?]) ?_
      push_neg
      exact ⟨v₁, by simp⟩
    · simp only [alistFind?, if_neg h, ih, List.mem_cons]
      constructor
      · intro hall v hv
        rcases hv with hv | hv
        · exact h (by cases hv; rfl)
        · exact hall v hv
      · intro hall v hv
        exact hall v (Or.inr hv)

theorem alistFind?_of_mem {α : Type} {l : List (Nat × α)} {k : Nat} {v : α}
    (hnd : (l.map Prod.fst).Nodup) (h : (k, v) ∈ l) :
    alistFind? l k = some v := by
  induction l with
  | nil => cases h
  | cons hd tl ih =>
    obtain ⟨k₁, v₁⟩ := hd
    simp only [List.map_cons, List.nodup_cons] at hnd
    rcases List.mem_cons.mp h with heq | hmem
    · cases heq
      simp [alistFind?]
    · have hk : k₁ ≠ k := by
        intro he
        exact hnd.1 (he ▸ List.mem_map_of_mem Prod.fst hmem)
      simp only [alistFind?, if_neg hk]
      exact ih hnd.2 hmem

/-- C8, confirmed.  For every port absent from the static table the Linux
    resolver returns exactly `"Unknown-<port>"` and the Windows resolver
    exactly `"Port-<port>"`; for every port in a table it returns the
    table's label. -/
theorem C8_well_known_resolution :
    (∀ p : Nat, (∀ lbl, (p, lbl) ∉ common_ports) →
      identify_service_by_port p = "Unknown-" ++ toString p) ∧
    (∀ p lbl, (p, lbl) ∈ common_ports → identify_service_by_port p = lbl) ∧
    (∀ p : Nat, (∀ lbl, (p, lbl) ∉ well_known_ports_windows) →
      identify_service_by_port_windows p = "Port-" ++ toString p) ∧
    (∀ p lbl, (p, lbl) ∈ well_known_ports_windows →
      identify_service_by_port_windows p = lbl) := by
  refine ⟨?_, ?_, ?_, ?_⟩
  · intro p h
    unfold identify_service_by_port
    rw [(alistFind?_eq_none_iff _ _).mpr h]
    rfl
  · intro p lbl h
    unfold identify_service_by_port
    rw [alistFind?_of_mem (by decide) h]
    rfl
  · intro p h
    unfold identify_service_by_port_windows
    rw [(alistFind?_eq_none_iff _ _).mpr h]
    rfl
  · intro p lbl h
    unfold identify_service_by_port_windows
    rw [alistFind?_of_mem (by decide) h]
    rfl

/-- Witness for C8 at concrete ports: 12345 is in neither table, 5432 is
    in both. -/
theorem C8_well_known_resolution_witness :
    identify_service_by_port 12345 = "Unknown-12345" ∧
    identify_service_by_port 5432 = "PostgreSQL" ∧
    identify_service_by_port_windows 12345 = "Port-12345" ∧
    identify_service_by_port_windows 3389 = "RDP" := by
  refine ⟨?_, ?_, ?_, ?_⟩
  · exact C8_well_known_resolution.1 12345 (by intro lbl h; simp [common_ports] at h)
  · exact C8_well_known_resolution.2.1 5432 "PostgreSQL" (by simp [common_ports])
  · exact C8_well_known_resolution.2.2.1 12345
      (by intro lbl h; simp [well_known_ports_windows] at h)
  · exact C8_well_known_resolution.2.2.2 3389 "RDP" (by simp [well_known_ports_windows])

/-! ## First-write-wins characterisation of the port index -/

/-- Left-biased choice on options (the effect of insert-if-absent). -/
def optOr {α : Type} : Option α → Option α → Option α
  | some a, _ => some a
  | none, b => b

@[simp] theorem optOr_some {α : Type} (a : α) (b : Option α) :
    optOr (some a) b = some a := rfl

@[simp] theorem optOr_none {α : Type} (b : Option α) : optOr none b = b := rfl

@[simp] theorem optOr_right_none {α : Type} (a : Option α) : optOr a none = a := by
  cases a <;> rfl

theorem optOr_assoc {α : Type} (a b c : Option α) :
    optOr (optOr a b) c = optOr a (optOr b c) := by
  cases a <;> cases b <;> rfl

/-- `f` is a LISTEN fact whose local endpoint has port `p`. -/
def listensOn (f : ConnFact) (p : Nat) : Bool :=
  f.status = "LISTEN" && (match f.laddr with
    | some la => la.2 = p
    | none => false)

/-- The first LISTEN fact for port `p`, in enumeration order. -/
def firstListenFor (facts : List ConnFact) (p : Nat) : Option ConnFact :=
  facts.find? (fun f => listensOn f p)

/-- The process fields a connection fact resolves to: a truthy pid that
    the process table still knows. -/
def procFieldsFor (procs : ProcTable) : Option Nat → Option ProcFact
  | some q => if q ≠ 0 then procLookup procs q else none
  | none => none

/-- The `service_info` record `netStep` would store for a LISTEN fact. -/
def mkServiceInfo (procs : ProcTable) (f : ConnFact) : Option ServiceInfo :=
  f.laddr.map (fun la =>
    { port := la.2,
      protocol := if f.isStream then "TCP" else "UDP",
      address := la.1,
      pid := f.pid,
      process_name := (procFieldsFor procs f.pid).map (fun pr => pr.name),
      process_user := (procFieldsFor procs f.pid).map (fun pr => pr.username),
      process_cmdline := (procFieldsFor procs f.pid).map (fun pr => pr.cmdline) })

/-- The `port_service_map` record `netStep` would store for a LISTEN fact
    (only when the owner resolves). -/
def mkPortService (procs : ProcTable) (f : ConnFact) : Option PortService :=
  (procFieldsFor procs f.pid).map (fun pr => { service := pr.name, pid := f.pid })

theorem alistFind?_append_single {α : Type} (l : List (Nat × α)) (k p : Nat) (v : α) :
    alistFind? (l ++ [(k, v)]) p =
      optOr (alistFind? l p) (if k = p then some v else none) := by
  induction l with
  | nil => simp [alistFind?]
  | cons hd tl ih =>
    obtain ⟨k₁, v₁⟩ := hd
    by_cases h : k₁ = p <;> simp [alistFind?, h, ih]

theorem alistFind?_some_mem {α : Type} {l : List (Nat × α)} {k : Nat} {v : α}
    (h : alistFind? l k = some v) : (k, v) ∈ l := by
  induction l with
  | nil => simp [alistFind?] at h
  | cons hd tl ih =>
    obtain ⟨k₁, v₁⟩ := hd
    by_cases hk : k₁ = k
    · subst hk
      simp [alistFind?] at h
      simp [h]
    · simp only [alistFind?, if_neg hk] at h
      exact List.mem_cons_of_mem _ (ih h)

theorem alistHasKey_false_iff {α : Type} (l : List (Nat × α)) (k : Nat) :
    alistHasKey l k = false ↔ ∀ v, (k, v) ∉ l := by
  unfold alistHasKey
  rw [← alistFind?_eq_none_iff l k]
  cases alistFind? l k <;> simp

theorem alistSet_of_absent {α : Type} {l : List (Nat × α)} {k : Nat}
    (h : alistFind? l k = none) (v : α) : alistSet l k v = l ++ [(k, v)] := by
  induction l with
  | nil => rfl
  | cons hd tl ih =>
    obtain ⟨k₁, v₁⟩ := hd
    by_cases hk : k₁ = k
    · subst hk; simp [alistFind?] at h
    · simp only [alistFind?, if_neg hk] at h
      simp [alistSet, hk, ih h]

/-- `attachProcess` does not touch the port-related maps, and fills the
    process fields of a blank record from `procFieldsFor`. -/
theorem attachProcess_spec (procs : ProcTable) (s : NetState) (f : ConnFact)
    (ci : ConnInfo) (hn : ci.process_name = none) (hu : ci.process_user = none)
    (hc : ci.process_cmdline = none) :
    (attachProcess procs s f ci).2.listening_ports = s.listening_ports ∧
    (attachProcess procs s f ci).2.port_service_map = s.port_service_map ∧
    (attachProcess procs s f ci).2.service_port_map = s.service_port_map ∧
    (attachProcess procs s f ci).1.process_name =
      (procFieldsFor procs f.pid).map (fun pr => pr.name) ∧
    (attachProcess procs s f ci).1.process_user =
      (procFieldsFor procs f.pid).map (fun pr => pr.username) ∧
    (attachProcess procs s f ci).1.process_cmdline =
      (procFieldsFor procs f.pid).map (fun pr => pr.cmdline) := by
  unfold attachProcess procFieldsFor
  match f.pid with
  | none => simp [hn, hu, hc]
  | some q =>
    by_cases hq : q ≠ 0
    · simp only [if_pos hq]
      cases procLookup procs q <;> simp [hn, hu, hc]
    · simp [if_neg hq, hn, hu, hc]


theorem recordServiceMaps_listening (s : NetState) (port : Nat) (pid : Option Nat)
    (nm : Option String) :
    (recordServiceMaps s port pid nm).listening_ports = s.listening_ports := by
  cases nm <;> simp [recordServiceMaps]

theorem recordServiceMaps_psm (s : NetState) (port : Nat) (pid : Option Nat) :
    (recordServiceMaps s port pid none).port_service_map = s.port_service_map ∧
    ∀ n, (recordServiceMaps s port pid (some n)).port_service_map =
      alistSet s.port_service_map port { service := n, pid := pid } := by
  exact ⟨rfl, fun n => rfl⟩


/-- The effect of one loop iteration on the listening-ports dict:
    insert-if-absent of the LISTEN fact's record. -/
theorem netStep_listening_find (procs : ProcTable) (s : NetState) (f : ConnFact)
    (p : Nat) :
    alistFind? (netStep procs s f).listening_ports p =
      optOr (alistFind? s.listening_ports p)
        (if listensOn f p then mkServiceInfo procs f else none) := by
  obtain ⟨fS, fL, fR, fSt, fP⟩ := f
  obtain ⟨h₁, h₂, h₃, h₄, h₅, h₆⟩ :=
    attachProcess_spec procs s ⟨fS, fL, fR, fSt, fP⟩
      { isStream := fS, local_address := fmtAddr fL, remote_address := fmtAddr fR,
        status := fSt, pid := fP,
        process_name := none, process_user := none, process_cmdline := none }
      rfl rfl rfl
  rcases hA : attachProcess procs s ⟨fS, fL, fR, fSt, fP⟩
      { isStream := fS, local_address := fmtAddr fL, remote_address := fmtAddr fR,
        status := fSt, pid := fP,
        process_name := none, process_user := none, process_cmdline := none }
    with ⟨ci', s'⟩
  rw [hA] at h₁ h₂ h₃ h₄ h₅ h₆
  dsimp only at h₁ h₂ h₃ h₄ h₅ h₆
  simp only [netStep, hA]
  by_cases hst : fSt = "LISTEN"
  · subst hst
    match fL with
    | none =>
      simp [listensOn, h₁]
    | some (ip, port) =>
      by_cases hk : alistHasKey s'.listening_ports port = true
      · by_cases hp : port = p
        · subst hp
          rw [h₁] at hk
          unfold alistHasKey at hk
          match hfind : alistFind? s.listening_ports port with
          | some v => simp [alistHasKey, h₁, hfind]
          | none => rw [hfind] at hk; simp at hk
        · rw [h₁] at hk
          simp [hk, h₁, listensOn, hp]
      · simp only [Bool.not_eq_true] at hk
        rw [h₁] at hk
        rw [h₁]
        simp only [hk, Bool.false_eq_true, if_false]
        rw [if_pos trivial]
        rw [recordServiceMaps_listening]
        dsimp only
        rw [alistFind?_append_single, h₄, h₅, h₆]
        by_cases hp : port = p
        · subst hp
          simp [listensOn, mkServiceInfo]
        · simp [listensOn, hp]
  · have hl : listensOn ⟨fS, fL, fR, fSt, fP⟩ p = false := by
      simp [listensOn, hst]
    rw [if_neg hst]
    by_cases hest : fSt = "ESTABLISHED"
    · rw [if_pos hest]
      simp [hl, h₁]
    · rw [if_neg hest]
      simp [hl, h₁]

/-- Keys of `port_service_map` are always keys of `listening_ports`. -/
def psmCoupled (s : NetState) : Prop :=
  ∀ q, (alistFind? s.port_service_map q).isSome = true →
    (alistFind? s.listening_ports q).isSome = true

/-- The effect of one loop iteration on `port_service_map`: the record
    is added only for a LISTEN fact on a fresh port whose owner resolves. -/
theorem netStep_psm_find (procs : ProcTable) (s : NetState) (f : ConnFact)
    (p : Nat) (hc : psmCoupled s) :
    alistFind? (netStep procs s f).port_service_map p =
      optOr (alistFind? s.port_service_map p)
        (if listensOn f p && !alistHasKey s.listening_ports p then
          mkPortService procs f else none) := by
  obtain ⟨fS, fL, fR, fSt, fP⟩ := f
  obtain ⟨h₁, h₂, h₃, h₄, h₅, h₆⟩ :=
    attachProcess_spec procs s ⟨fS, fL, fR, fSt, fP⟩
      { isStream := fS, local_address := fmtAddr fL, remote_address := fmtAddr fR,
        status := fSt, pid := fP,
        process_name := none, process_user := none, process_cmdline := none }
      rfl rfl rfl
  rcases hA : attachProcess procs s ⟨fS, fL, fR, fSt, fP⟩
      { isStream := fS, local_address := fmtAddr fL, remote_address := fmtAddr fR,
        status := fSt, pid := fP,
        process_name := none, process_user := none, process_cmdline := none }
    with ⟨ci', s'⟩
  rw [hA] at h₁ h₂ h₃ h₄ h₅ h₆
  dsimp only at h₁ h₂ h₃ h₄ h₅ h₆
  simp only [netStep, hA]
  by_cases hst : fSt = "LISTEN"
  · subst hst
    match fL with
    | none =>
      simp [listensOn, h₂]
    | some (ip, port) =>
      simp only [if_pos (show ("LISTEN" : String) = "LISTEN" from rfl)]
      dsimp only
      by_cases hk : alistHasKey s'.listening_ports port = true
      · rw [h₁] at hk
        rw [h₁, if_pos hk]
        by_cases hp : port = p
        · subst hp
          simp [hk, listensOn, h₂]
        · simp [listensOn, hp, h₂]
      · simp only [Bool.not_eq_true] at hk
        rw [h₁] at hk
        rw [h₁]
        simp only [hk, Bool.false_eq_true, if_false]
        rw [if_pos trivial]
        rw [h₄]
        match hpf : procFieldsFor procs fP with
        | none =>
          dsimp only [Option.map]
          rw [(recordServiceMaps_psm _ _ _).1]
          dsimp only
          rw [h₂]
          by_cases hp : port = p
          · subst hp
            simp [listensOn, mkPortService, hpf, hk]
          · simp [listensOn, hp]
        | some pr =>
          dsimp only [Option.map]
          rw [(recordServiceMaps_psm _ _ _).2 pr.name]
          dsimp only
          rw [h₂]
          have habs : alistFind? s.port_service_map port = none := by
            match hpsm : alistFind? s.port_service_map port with
            | none => rfl
            | some v =>
              have h5 := hc port (by simp [hpsm])
              unfold alistHasKey at hk
              rw [hk] at h5
              simp at h5
          rw [alistSet_of_absent habs, alistFind?_append_single]
          by_cases hp : port = p
          · subst hp
            simp [listensOn, mkPortService, hpf, hk]
          · simp [listensOn, hp]
  · have hl : listensOn ⟨fS, fL, fR, fSt, fP⟩ p = false := by
      simp [listensOn, hst]
    rw [if_neg hst]
    by_cases hest : fSt = "ESTABLISHED"
    · rw [if_pos hest]
      simp [hl, h₂]
    · rw [if_neg hest]
      simp [hl, h₂]

theorem listensOn_laddr_isSome {f : ConnFact} {p : Nat}
    (h : listensOn f p = true) : f.laddr.isSome = true := by
  unfold listensOn at h
  cases hla : f.laddr <;> rw [hla] at h <;> simp_all

theorem netStep_coupled (procs : ProcTable) (s : NetState) (f : ConnFact)
    (hc : psmCoupled s) : psmCoupled (netStep procs s f) := by
  intro q hq
  rw [netStep_psm_find procs s f q hc] at hq
  rw [netStep_listening_find procs s f q]
  match hpsm : alistFind? s.port_service_map q with
  | some v =>
    have := hc q (by simp [hpsm])
    match hls : alistFind? s.listening_ports q with
    | some w => simp
    | none => rw [hls] at this; simp at this
  | none =>
    rw [hpsm] at hq
    simp only [optOr_none] at hq
    by_cases hl : listensOn f q = true
    · have : mkServiceInfo procs f ≠ none := by
        have hla := listensOn_laddr_isSome hl
        unfold mkServiceInfo
        cases hlad : f.laddr
        · rw [hlad] at hla; simp at hla
        · simp
      match hls : alistFind? s.listening_ports q with
      | some w => simp
      | none =>
        simp only [hls, optOr_none, hl, if_pos]
        match hmk : mkServiceInfo procs f with
        | some si => simp
        | none => exact absurd hmk this
    · have hfalse : (listensOn f q && !alistHasKey s.listening_ports q) = false := by
        simp only [Bool.not_eq_true] at hl
        simp [hl]
      simp [hfalse] at hq

/-- The whole `for conn in connections` fold, characterised per port:
    both dicts retain exactly the first LISTEN fact for each port. -/
theorem netFold_find (procs : ProcTable) (fs : List ConnFact) (s : NetState)
    (hc : psmCoupled s) (p : Nat) :
    alistFind? ((fs.foldl (netStep procs) s).listening_ports) p =
      optOr (alistFind? s.listening_ports p)
        ((firstListenFor fs p).bind (mkServiceInfo procs)) ∧
    alistFind? ((fs.foldl (netStep procs) s).port_service_map) p =
      optOr (alistFind? s.port_service_map p)
        (if alistHasKey s.listening_ports p then none
         else (firstListenFor fs p).bind (mkPortService procs)) := by
  induction fs generalizing s with
  | nil =>
    simp [firstListenFor, List.find?]
  | cons f fs ih =>
    have hc' : psmCoupled (netStep procs s f) := netStep_coupled procs s f hc
    obtain ⟨ihL, ihP⟩ := ih (netStep procs s f) hc'
    rw [List.foldl_cons]
    constructor
    · rw [ihL, netStep_listening_find procs s f p, optOr_assoc]
      unfold firstListenFor
      by_cases hl : listensOn f p = true
      · simp only [List.find?, hl]
        have : mkServiceInfo procs f ≠ none := by
          have hla := listensOn_laddr_isSome hl
          unfold mkServiceInfo
          cases hlad : f.laddr
          · rw [hlad] at hla; simp at hla
          · simp
        match hmk : mkServiceInfo procs f with
        | some si => simp [hl, hmk]
        | none => exact absurd hmk this
      · have hl' : listensOn f p = false := by simpa using hl
        simp only [List.find?, hl']
        simp [hl']
    · rw [ihP, netStep_psm_find procs s f p hc]
      unfold firstListenFor
      by_cases hk : alistHasKey s.listening_ports p = true
      · -- port already retained before this step: nothing changes
        have hk' : alistHasKey (netStep procs s f).listening_ports p = true := by
          unfold alistHasKey
          rw [netStep_listening_find procs s f p]
          unfold alistHasKey at hk
          match hls : alistFind? s.listening_ports p with
          | some w => simp
          | none => rw [hls] at hk; simp at hk
        rw [if_pos hk']
        simp [hk]
      · simp only [Bool.not_eq_true] at hk
        by_cases hl : listensOn f p = true
        · -- this fact is the first LISTEN for p
          have hk' : alistHasKey (netStep procs s f).listening_ports p = true := by
            unfold alistHasKey
            rw [netStep_listening_find procs s f p]
            unfold alistHasKey at hk
            match hls : alistFind? s.listening_ports p with
            | some w => simp
            | none =>
              simp only [hls, optOr_none, if_pos hl]
              have : mkServiceInfo procs f ≠ none := by
                have hla := listensOn_laddr_isSome hl
                unfold mkServiceInfo
                cases hlad : f.laddr
                · rw [hlad] at hla; simp at hla
                · simp
              match hmk : mkServiceInfo procs f with
              | some si => simp
              | none => exact absurd hmk this
          rw [if_pos hk']
          simp only [List.find?, hl]
          simp [hl, hk]
        · -- f is not a LISTEN for p: pass through
          have hkeq : alistHasKey (netStep procs s f).listening_ports p =
              alistHasKey s.listening_ports p := by
            unfold alistHasKey
            rw [netStep_listening_find procs s f p]
            simp [hl]
          have hl' : listensOn f p = false := by simpa using hl
          rw [hkeq]
          simp [hl', hk, List.find?]

theorem netInit_coupled : psmCoupled netInit := by
  intro q hq
  simp [netInit, alistFind?] at hq

theorem netFoldState_listening_find (procs : ProcTable) (facts : List ConnFact)
    (p : Nat) :
    alistFind? (netFoldState procs facts).listening_ports p =
      (firstListenFor facts p).bind (mkServiceInfo procs) := by
  have h := (netFold_find procs facts netInit netInit_coupled p).1
  simpa [netFoldState, netInit, alistFind?] using h

theorem netFoldState_psm_find (procs : ProcTable) (facts : List ConnFact)
    (p : Nat) :
    alistFind? (netFoldState procs facts).port_service_map p =
      (firstListenFor facts p).bind (mkPortService procs) := by
  have h := (netFold_find procs facts netInit netInit_coupled p).2
  simpa [netFoldState, netInit, alistFind?, alistHasKey] using h

/-- C4 amended: the binding retained in the port index is that of the
    first LISTEN fact in enumeration order (first-write-wins); no
    pid-based tie-break exists, so the retained binding is a function of
    the enumeration order, not of the fact set alone. -/
theorem C4_port_index_first_write_wins (procs : ProcTable)
    (facts : List ConnFact) (p : Nat) :
    alistFind? (get_network_info procs facts).port_service_map p =
      (firstListenFor facts p).bind (mkPortService procs) := by
  unfold get_network_info
  exact netFoldState_psm_find procs facts p

/-- Fact A of the C4 counterexample: pid 1 listening on port 80. -/
def c4factA : ConnFact :=
  { isStream := true, laddr := some ("0.0.0.0", 80), raddr := none,
    status := "LISTEN", pid := some 1 }

/-- Fact B of the C4 counterexample: pid 2 listening on port 80. -/
def c4factB : ConnFact :=
  { isStream := true, laddr := some ("0.0.0.0", 80), raddr := none,
    status := "LISTEN", pid := some 2 }

/-- Process table for the C4 counterexample. -/
def c4procs : ProcTable :=
  [(1, { name := "nginx", username := "root", cmdline := "nginx" }),
   (2, { name := "apache2", username := "www-data", cmdline := "apache2" })]

/-- C4, counterexample: the same two LISTEN facts for port 80 in the two
    enumeration orders retain different bindings, so the retained binding
    is not permutation-invariant and no deterministic tie-break (such as
    lowest pid) is applied. -/
theorem C4_counterexample :
    List.Perm [c4factA, c4factB] [c4factB, c4factA] ∧
    (get_network_info c4procs [c4factA, c4factB]).port_service_map ≠
      (get_network_info c4procs [c4factB, c4factA]).port_service_map := by
  constructor
  · exact List.Perm.swap _ _ _
  · decide

/-! ## Shape invariants of the listening-ports dict -/

/-- Each entry is stored under its own port, and ports are unique. -/
def listeningWF (s : NetState) : Prop :=
  (∀ kv ∈ s.listening_ports, (kv : Nat × ServiceInfo).2.port = kv.1) ∧
  (s.listening_ports.map Prod.fst).Nodup

theorem netStep_listening_cases (procs : ProcTable) (s : NetState) (f : ConnFact) :
    (netStep procs s f).listening_ports = s.listening_ports ∨
    ∃ port svc, (svc : ServiceInfo).port = port ∧
      alistFind? s.listening_ports port = none ∧
      (netStep procs s f).listening_ports = s.listening_ports ++ [(port, svc)] := by
  obtain ⟨fS, fL, fR, fSt, fP⟩ := f
  obtain ⟨h₁, h₂, h₃, h₄, h₅, h₆⟩ :=
    attachProcess_spec procs s ⟨fS, fL, fR, fSt, fP⟩
      { isStream := fS, local_address := fmtAddr fL, remote_address := fmtAddr fR,
        status := fSt, pid := fP,
        process_name := none, process_user := none, process_cmdline := none }
      rfl rfl rfl
  rcases hA : attachProcess procs s ⟨fS, fL, fR, fSt, fP⟩
      { isStream := fS, local_address := fmtAddr fL, remote_address := fmtAddr fR,
        status := fSt, pid := fP,
        process_name := none, process_user := none, process_cmdline := none }
    with ⟨ci', s'⟩
  rw [hA] at h₁ h₂ h₃ h₄ h₅ h₆
  dsimp only at h₁ h₂ h₃ h₄ h₅ h₆
  simp only [netStep, hA]
  by_cases hst : fSt = "LISTEN"
  · subst hst
    match fL with
    | none => left; simp [h₁]
    | some (ip, port) =>
      simp only [if_pos (show ("LISTEN" : String) = "LISTEN" from rfl)]
      dsimp only
      by_cases hk : alistHasKey s'.listening_ports port = true
      · left
        rw [if_pos hk]
        simpa using h₁
      · right
        simp only [Bool.not_eq_true] at hk
        rw [h₁] at hk
        rw [h₁]
        simp only [hk, Bool.false_eq_true, if_false]
        refine ⟨port,
          { port := port, protocol := if fS then "TCP" else "UDP", address := ip,
            pid := fP, process_name := ci'.process_name,
            process_user := ci'.process_user,
            process_cmdline := ci'.process_cmdline }, rfl, ?_, ?_⟩
        · unfold alistHasKey at hk
          cases hf : alistFind? s.listening_ports port
          · rfl
          · rw [hf] at hk; simp at hk
        · rw [if_pos trivial]
          rw [recordServiceMaps_listening]
  · left
    rw [if_neg hst]
    by_cases hest : fSt = "ESTABLISHED"
    · rw [if_pos hest]
      simpa using h₁
    · rw [if_neg hest]
      exact h₁

theorem netStep_listeningWF (procs : ProcTable) (s : NetState) (f : ConnFact)
    (h : listeningWF s) : listeningWF (netStep procs s f) := by
  rcases netStep_listening_cases procs s f with heq | ⟨port, svc, hsvc, hfr, heq⟩
  · unfold listeningWF
    rw [heq]
    exact h
  · obtain ⟨hmatch, hnd⟩ := h
    have hnotin : port ∉ s.listening_ports.map Prod.fst := by
      intro hmem
      obtain ⟨kv, hkv, hfst⟩ := List.mem_map.mp hmem
      have : (port, kv.2) ∈ s.listening_ports := by
        have : kv = (port, kv.2) := by
          rw [← hfst]
        rw [← this]
        exact hkv
      exact (alistFind?_eq_none_iff _ _).mp hfr kv.2 this
    constructor
    · rw [heq]
      intro kv hkv
      rcases List.mem_append.mp hkv with hm | hm
      · exact hmatch kv hm
      · rcases List.mem_singleton.mp hm with rfl
        exact hsvc
    · rw [heq, List.map_append]
      simp only [List.map_cons, List.map_nil]
      rw [List.nodup_append]
      exact ⟨hnd, List.nodup_singleton port, by simpa using hnotin⟩

theorem netFoldState_listeningWF (procs : ProcTable) (facts : List ConnFact) :
    listeningWF (netFoldState procs facts) := by
  unfold netFoldState
  have hgen : ∀ (fs : List ConnFact) (s : NetState), listeningWF s →
      listeningWF (fs.foldl (netStep procs) s) := by
    intro fs
    induction fs with
    | nil => intro s hs; exact hs
    | cons f fs ih =>
      intro s hs
      exact ih _ (netStep_listeningWF procs s f hs)
  refine hgen facts netInit ⟨?_, ?_⟩ <;> simp [netInit]

theorem pairwise_and_of {α : Type} {R S : α → α → Prop} :
    ∀ {l : List α}, List.Pairwise R l → List.Pairwise S l →
      List.Pairwise (fun a b => R a b ∧ S a b) l
  | [], _, _ => List.Pairwise.nil
  | _ :: _, List.Pairwise.cons hR hRs, List.Pairwise.cons hS hSs =>
    List.Pairwise.cons (fun b hb => ⟨hR b hb, hS b hb⟩) (pairwise_and_of hRs hSs)

/-- C10, confirmed.  The `listening_ports` list of the network section
    has at most one entry per port (the entry is exactly the one the
    first LISTEN fact for that port produced), and is sorted in strictly
    ascending port order. -/
theorem C10_listening_ports_dedup_first_sorted (procs : ProcTable)
    (facts : List ConnFact) :
    (((get_network_info procs facts).listening_ports).map
      (fun si => si.port)).Nodup ∧
    List.Pairwise (fun a b : ServiceInfo => a.port < b.port)
      (get_network_info procs facts).listening_ports ∧
    ∀ si : ServiceInfo,
      (si ∈ (get_network_info procs facts).listening_ports ↔
        (firstListenFor facts si.port).bind (mkServiceInfo procs) = some si) := by
  obtain ⟨hmatch, hnd⟩ := netFoldState_listeningWF procs facts
  have hvals : ((netFoldState procs facts).listening_ports.map Prod.snd).map
      (fun si => si.port) = (netFoldState procs facts).listening_ports.map Prod.fst := by
    rw [List.map_map]
    exact List.map_congr_left (fun kv hkv => hmatch kv hkv)
  have hvnd : (((netFoldState procs facts).listening_ports.map Prod.snd).map
      (fun si => si.port)).Nodup := by
    rw [hvals]; exact hnd
  have hperm : List.Perm
      (sortByPort ((netFoldState procs facts).listening_ports.map Prod.snd))
      ((netFoldState procs facts).listening_ports.map Prod.snd) :=
    List.perm_insertionSort _ _
  have hlsnd : ((get_network_info procs facts).listening_ports.map
      (fun si => si.port)).Nodup := by
    unfold get_network_info
    dsimp only
    exact ((hperm.map (fun si => si.port)).nodup_iff).mpr hvnd
  refine ⟨hlsnd, ?_, ?_⟩
  · haveI : IsTotal ServiceInfo (fun a b => a.port ≤ b.port) :=
      ⟨fun a b => Nat.le_total a.port b.port⟩
    haveI : IsTrans ServiceInfo (fun a b => a.port ≤ b.port) :=
      ⟨fun _ _ _ hab hbc => Nat.le_trans hab hbc⟩
    have hs : List.Pairwise (fun a b : ServiceInfo => a.port ≤ b.port)
        (get_network_info procs facts).listening_ports := by
      unfold get_network_info
      dsimp only
      exact List.sorted_insertionSort _ _
    have hne : List.Pairwise (fun a b : ServiceInfo => a.port ≠ b.port)
        (get_network_info procs facts).listening_ports := by
      have h := hlsnd
      unfold List.Nodup at h
      rw [List.pairwise_map] at h
      exact h
    exact (pairwise_and_of hs hne).imp
      (fun hab => Nat.lt_of_le_of_ne hab.1 hab.2)
  · intro si
    have hmem : si ∈ (get_network_info procs facts).listening_ports ↔
        si ∈ (netFoldState procs facts).listening_ports.map Prod.snd := by
      unfold get_network_info
      dsimp only
      exact hperm.mem_iff
    rw [hmem, ← netFoldState_listening_find procs facts si.port]
    constructor
    · intro hv
      obtain ⟨kv, hkv, hsnd⟩ := List.mem_map.mp hv
      have hkey : kv.1 = si.port := by
        have := hmatch kv hkv
        rw [hsnd] at this
        exact this.symm
      have hpair : (si.port, si) ∈ (netFoldState procs facts).listening_ports := by
        have : kv = (si.port, si) := by
          ext
          · exact hkey
          · rw [hsnd]
        rw [← this]
        exact hkv
      exact alistFind?_of_mem hnd hpair
    · intro hf
      have hpair := alistFind?_some_mem hf
      exact List.mem_map.mpr ⟨(si.port, si), hpair, rfl⟩

/-! ## C2: the concrete postgres/app scenario -/

/-- Process table of the C2 scenario. -/
def c2procs : ProcTable :=
  [(10, { name := "postgres", username := "postgres", cmdline := "/usr/lib/postgresql/bin/postgres" }),
   (20, { name := "app", username := "appuser", cmdline := "/usr/bin/app" })]

/-- The LISTEN fact: port 5432 owned by pid 10. -/
def c2listen : ConnFact :=
  { isStream := true, laddr := some ("127.0.0.1", 5432), raddr := none,
    status := "LISTEN", pid := some 10 }

/-- The ESTABLISHED fact: pid 20 connected to 127.0.0.1:5432. -/
def c2estab : ConnFact :=
  { isStream := true, laddr := some ("127.0.0.1", 51000),
    raddr := some ("127.0.0.1", 5432), status := "ESTABLISHED", pid := some 20 }

/-- The network section of the C2 scenario. -/
def c2net : NetworkInfo := get_network_info c2procs [c2listen, c2estab]

/-- The port-dependency section of the C2 scenario. -/
def c2deps : PortDeps :=
  get_port_dependencies c2procs c2net.port_service_map c2net.process_connections

/-- C2, confirmed.  On the concrete fact set of the claim the result has
    `listening_services[5432].service = "postgres"`, exactly the one
    dependency edge `{client_process := "app", client_pid := 20,
    server_port := 5432, server_service := "postgres"}`, and
    `port_usage_map[5432].client_count = 1`. -/
theorem C2_concrete_scenario :
    (alistFind? c2deps.listening_services 5432).map (fun ls => ls.service) =
      some "postgres" ∧
    c2deps.dependency_graph =
      [{ client_process := "app", client_pid := 20, server_port := 5432,
         server_service := "postgres", dependency_type := "port-level" }] ∧
    (alistFind? c2deps.port_usage_map 5432).map (fun u => u.client_count) =
      some 1 := by
  refine ⟨?_, ?_, ?_⟩ <;> decide

/-! ## C5: a LISTEN socket whose owner lookup fails -/

/-- C5 amended: the run does not fail and the binding is indexed with a
    null service name, but the port slot it occupies is the
    `listening_ports` dedup index (a later LISTEN fact for the same port
    is ignored), while the port is **absent** from `port_service_map`
    (and hence from `service_port_map` and the port-dependency views),
    rather than present with a null service. -/
theorem C5_unresolved_listener (p q : Nat) (procs : ProcTable) (ip : String)
    (st : Bool) (hq : q ≠ 0) (hl : procLookup procs q = none) :
    (get_network_info procs
        [{ isStream := st, laddr := some (ip, p), raddr := none,
           status := "LISTEN", pid := some q }]).listening_ports =
      [{ port := p, protocol := if st then "TCP" else "UDP", address := ip,
         pid := some q, process_name := none, process_user := none,
         process_cmdline := none }] ∧
    (get_network_info procs
        [{ isStream := st, laddr := some (ip, p), raddr := none,
           status := "LISTEN", pid := some q }]).port_service_map = [] ∧
    (get_network_info procs
        [{ isStream := st, laddr := some (ip, p), raddr := none,
           status := "LISTEN", pid := some q }]).service_port_map = [] ∧
    ∀ g : ConnFact,
      alistFind? (get_network_info procs
        [{ isStream := st, laddr := some (ip, p), raddr := none,
           status := "LISTEN", pid := some q }, g]).port_service_map p = none := by
  have hl' : alistFind? procs q = none := hl
  have hone : netFoldState procs
      [{ isStream := st, laddr := some (ip, p), raddr := none,
         status := "LISTEN", pid := some q }] =
      { connections :=
          [{ isStream := st, local_address := some (ip ++ ":" ++ toString p),
             remote_address := none, status := "LISTEN", pid := some q,
             process_name := none, process_user := none,
             process_cmdline := none }],
        listening_ports :=
          [(p, { port := p, protocol := if st then "TCP" else "UDP",
                 address := ip, pid := some q, process_name := none,
                 process_user := none, process_cmdline := none })],
        established := [], port_service_map := [], service_port_map := [],
        process_connections := [] } := by
    simp [netFoldState, netStep, attachProcess, hq, hl', procLookup, fmtAddr,
      recordServiceMaps, netInit, alistHasKey, alistFind?]
  refine ⟨?_, ?_, ?_, ?_⟩
  · rw [get_network_info, hone]
    simp [sortByPort, List.insertionSort, List.orderedInsert]
  · rw [get_network_info, hone]
  · rw [get_network_info, hone]
  · intro g
    rw [C4_port_index_first_write_wins]
    have hfirst : firstListenFor
        [{ isStream := st, laddr := some (ip, p), raddr := none,
           status := "LISTEN", pid := some q }, g] p =
        some { isStream := st, laddr := some (ip, p), raddr := none,
               status := "LISTEN", pid := some q } := by
      unfold firstListenFor
      simp [List.find?, listensOn]
    rw [hfirst]
    simp [Option.bind, mkPortService, procFieldsFor, hq, procLookup, hl']

/-- Witness for C5 at a concrete unresolved pid. -/
theorem C5_unresolved_listener_witness :
    (99 : Nat) ≠ 0 ∧ procLookup [] 99 = none ∧
    (get_network_info ([] : ProcTable)
        [{ isStream := true, laddr := some ("0.0.0.0", 8080), raddr := none,
           status := "LISTEN", pid := some 99 }]).port_service_map = [] :=
  ⟨by decide, rfl, (C5_unresolved_listener 8080 99 [] "0.0.0.0" true (by decide) rfl).2.1⟩

/-- C5, counterexample: with the single LISTEN fact on port 8080 whose
    owner lookup fails, `port_service_map` does **not** keep 8080 as a
    key (the claim asserts the port still occupies its slot in
    `port_to_service` / `port_service_map`). -/
theorem C5_counterexample :
    alistHasKey (get_network_info ([] : ProcTable)
        [{ isStream := true, laddr := some ("0.0.0.0", 8080), raddr := none,
           status := "LISTEN", pid := some 99 }]).port_service_map 8080 = false := by
  decide

/-! ## C1: dedup behaviour on repeated same-client connections -/

/-- Network state with one listener and two identical loopback
    connections from the same client process. -/
def c1net : NetworkInfo := get_network_info c2procs [c2listen, c2estab, c2estab]

/-- Port-dependency view of that snapshot. -/
def c1deps : PortDeps :=
  get_port_dependencies c2procs c1net.port_service_map c1net.process_connections

/-- Communication map of that snapshot. -/
def c1comm : CommMap :=
  get_application_communication_map c2procs c1net.port_service_map
    c1net.process_connections

/-- C1, counterexample: two ESTABLISHED loopback connections from the
    same client process to the same listening port yield **two**
    dependency edges for the pair ("app", 5432) — the edge append is not
    guarded by the dedup test — while `service_clients` does keep a
    single client entry. -/
theorem C1_counterexample :
    c1deps.dependency_graph.map (fun e => (e.client_process, e.server_port)) =
      [("app", 5432), ("app", 5432)] ∧
    (salistFind? c1comm.service_clients "postgres").map (fun l => l.length) =
      some 1 := by
  constructor <;> decide

/-! ## More association-list lemmas -/

theorem alistFind?_update_eq {α : Type} (l : List (Nat × α)) (k p : Nat)
    (f : α → α) :
    alistFind? (alistUpdate l k f) p =
      if k = p then (alistFind? l p).map f else alistFind? l p := by
  induction l with
  | nil =>
    by_cases h : k = p <;> simp [alistUpdate, alistFind?, h]
  | cons hd tl ih =>
    obtain ⟨k₁, v₁⟩ := hd
    by_cases h1 : k₁ = k
    · subst h1
      by_cases h2 : k₁ = p
      · subst h2
        simp [alistUpdate, alistFind?]
      · simp [alistUpdate, alistFind?, h2]
    · by_cases h2 : k₁ = p
      · subst h2
        have : k ≠ k₁ := fun he => h1 he.symm
        simp [alistUpdate, alistFind?, h1, this]
      · simp [alistUpdate, alistFind?, h1, h2, ih]

theorem alistUpdate_hasKey {α : Type} (l : List (Nat × α)) (k p : Nat) (f : α → α) :
    alistHasKey (alistUpdate l k f) p = alistHasKey l p := by
  unfold alistHasKey
  rw [alistFind?_update_eq]
  by_cases h : k = p
  · subst h
    cases alistFind? l k <;> simp
  · simp [h]

theorem salistFind?_update_eq {α : Type} (l : List (String × α)) (k p : String)
    (f : α → α) :
    salistFind? (salistUpdate l k f) p =
      if k = p then (salistFind? l p).map f else salistFind? l p := by
  induction l with
  | nil =>
    by_cases h : k = p <;> simp [salistUpdate, salistFind?, h]
  | cons hd tl ih =>
    obtain ⟨k₁, v₁⟩ := hd
    by_cases h1 : k₁ = k
    · subst h1
      by_cases h2 : k₁ = p
      · subst h2
        simp [salistUpdate, salistFind?]
      · simp [salistUpdate, salistFind?, h2]
    · by_cases h2 : k₁ = p
      · subst h2
        have : k ≠ k₁ := fun he => h1 he.symm
        simp [salistUpdate, salistFind?, h1, this]
      · simp [salistUpdate, salistFind?, h1, h2, ih]

theorem salistFind?_append_single {α : Type} (l : List (String × α)) (k p : String)
    (v : α) :
    salistFind? (l ++ [(k, v)]) p =
      optOr (salistFind? l p) (if k = p then some v else none) := by
  induction l with
  | nil => simp [salistFind?]
  | cons hd tl ih =>
    obtain ⟨k₁, v₁⟩ := hd
    by_cases h : k₁ = p <;> simp [salistFind?, h, ih]

theorem alistFind?_map_keyed {α β : Type} (l : List (Nat × α)) (g : Nat → α → β)
    (p : Nat) :
    alistFind? (l.map (fun kv => (kv.1, g kv.1 kv.2))) p =
      (alistFind? l p).map (g p) := by
  induction l with
  | nil => simp [alistFind?]
  | cons hd tl ih =>
    obtain ⟨k₁, v₁⟩ := hd
    by_cases h : k₁ = p
    · subst h
      simp [alistFind?]
    · simp [alistFind?, h, ih]

/-! ## C1 amended: exact dedup semantics of the three views -/

/-- The conditions under which one connection of a resolved client
    produces a dependency edge, with the port test abstracted over the
    key set of the listening index (whose keys never change during the
    build). -/
def pdQualifiesKeys (keyTest : Nat → Bool) (c : ConnInfo) : Bool :=
  if c.status ≠ "ESTABLISHED" then false
  else
    match c.remote_address with
    | none => false
    | some addr =>
      match parseRemoteAddr addr with
      | none => false
      | some (ip, rport) => portDepIsLocalIp ip && keyTest rport

/-- The number of dependency edges the builder emits: one per qualifying
    connection of each resolvable client pid — no deduplication. -/
def pdEdgeCount (procs : ProcTable) (psm : List (Nat × PortService))
    (pcs : List (Nat × List ConnInfo)) : Nat :=
  (pcs.map (fun e =>
    match procLookup procs e.1 with
    | none => 0
    | some _ => (e.2.filter (pdQualifiesKeys (alistHasKey psm))).length)).sum

theorem portDepConnStep_len_keys (name : String) (pid : Nat)
    (ls : List (Nat × ListeningService)) (dg : List DepEdge) (c : ConnInfo) :
    ((portDepConnStep name pid (ls, dg) c).2.length =
      dg.length + (if pdQualifiesKeys (alistHasKey ls) c then 1 else 0)) ∧
    (∀ p, alistHasKey (portDepConnStep name pid (ls, dg) c).1 p =
      alistHasKey ls p) := by
  unfold portDepConnStep
  dsimp only
  by_cases hs : c.status ≠ "ESTABLISHED"
  · rw [if_pos hs]
    have hq : pdQualifiesKeys (alistHasKey ls) c = false := by
      unfold pdQualifiesKeys
      rw [if_pos hs]
    simp [hq]
  · rw [if_neg hs]
    match hre : c.remote_address with
    | none =>
      have hq : pdQualifiesKeys (alistHasKey ls) c = false := by
        unfold pdQualifiesKeys
        rw [if_neg hs, hre]
      simp [hq]
    | some addr =>
      match hpa : parseRemoteAddr addr with
      | none =>
        have hq : pdQualifiesKeys (alistHasKey ls) c = false := by
          unfold pdQualifiesKeys
          rw [if_neg hs, hre]
          dsimp only
          rw [hpa]
        simp [hpa, hq]
      | some (ip, rport) =>
        by_cases hloc : portDepIsLocalIp ip = true
        · match hfind : alistFind? ls rport with
          | none =>
            have hhk : alistHasKey ls rport = false := by
              unfold alistHasKey; rw [hfind]; rfl
            have hq : pdQualifiesKeys (alistHasKey ls) c = false := by
              unfold pdQualifiesKeys
              rw [if_neg hs, hre]
              dsimp only
              rw [hpa]
              dsimp only
              rw [hloc, hhk]
              rfl
            simp [hpa, hloc, hfind, hq]
          | some entry =>
            have hhk : alistHasKey ls rport = true := by
              unfold alistHasKey; rw [hfind]; rfl
            have hq : pdQualifiesKeys (alistHasKey ls) c = true := by
              unfold pdQualifiesKeys
              rw [if_neg hs, hre]
              dsimp only
              rw [hpa]
              dsimp only
              rw [hloc, hhk]
              rfl
            by_cases hmem : ({ client_process := name, client_pid := pid } :
                DepClient) ∈ entry.clients
            · simp [hpa, hloc, hfind, hmem, hq]
            · simp [hpa, hloc, hfind, hmem, hq, alistUpdate_hasKey]
        · have hnl : portDepIsLocalIp ip = false := by simpa using hloc
          have hq : pdQualifiesKeys (alistHasKey ls) c = false := by
            unfold pdQualifiesKeys
            rw [if_neg hs, hre]
            dsimp only
            rw [hpa]
            dsimp only
            rw [hnl]
            rfl
          simp [hpa, hnl, hq]


theorem portDepConns_len_keys (name : String) (pid : Nat) :
    ∀ (conns : List ConnInfo) (ls : List (Nat × ListeningService))
      (dg : List DepEdge),
    ((conns.foldl (portDepConnStep name pid) (ls, dg)).2.length =
      dg.length + (conns.filter (pdQualifiesKeys (alistHasKey ls))).length) ∧
    (∀ p, alistHasKey (conns.foldl (portDepConnStep name pid) (ls, dg)).1 p =
      alistHasKey ls p) := by
  intro conns
  induction conns with
  | nil => intro ls dg; simp
  | cons c rest ih =>
    intro ls dg
    rw [List.foldl_cons]
    obtain ⟨hlen, hkeys⟩ := portDepConnStep_len_keys name pid ls dg c
    rcases hstep : portDepConnStep name pid (ls, dg) c with ⟨ls', dg'⟩
    rw [hstep] at hlen hkeys
    dsimp only at hlen hkeys
    obtain ⟨ihlen, ihkeys⟩ := ih ls' dg'
    have hfun : alistHasKey ls' = alistHasKey ls := funext hkeys
    constructor
    · rw [ihlen, hlen, hfun]
      by_cases hq : pdQualifiesKeys (alistHasKey ls) c = true
      · simp [List.filter, hq]
        omega
      · have hq' : pdQualifiesKeys (alistHasKey ls) c = false := by simpa using hq
        simp [List.filter, hq']
    · intro p
      rw [ihkeys p, hkeys p]

theorem portDepPids_len (procs : ProcTable) :
    ∀ (pcs : List (Nat × List ConnInfo)) (ls : List (Nat × ListeningService))
      (dg : List DepEdge),
    ((pcs.foldl (portDepPidStep procs) (ls, dg)).2.length =
      dg.length + (pcs.map (fun e =>
        match procLookup procs e.1 with
        | none => 0
        | some _ => (e.2.filter (pdQualifiesKeys (alistHasKey ls))).length)).sum) ∧
    (∀ p, alistHasKey (pcs.foldl (portDepPidStep procs) (ls, dg)).1 p =
      alistHasKey ls p) := by
  intro pcs
  induction pcs with
  | nil => intro ls dg; simp
  | cons e rest ih =>
    intro ls dg
    rw [List.foldl_cons]
    match hpl : procLookup procs e.1 with
    | none =>
      have hstep : portDepPidStep procs (ls, dg) e = (ls, dg) := by
        unfold portDepPidStep
        rw [hpl]
      rw [hstep]
      obtain ⟨ihlen, ihkeys⟩ := ih ls dg
      constructor
      · rw [ihlen]
        simp [hpl]
      · exact ihkeys
    | some pr =>
      have hstep : portDepPidStep procs (ls, dg) e =
          e.2.foldl (portDepConnStep pr.name e.1) (ls, dg) := by
        unfold portDepPidStep
        rw [hpl]
      rw [hstep]
      obtain ⟨clen, ckeys⟩ := portDepConns_len_keys pr.name e.1 e.2 ls dg
      rcases hc : e.2.foldl (portDepConnStep pr.name e.1) (ls, dg) with ⟨ls', dg'⟩
      rw [hc] at clen ckeys
      dsimp only at clen ckeys
      obtain ⟨ihlen, ihkeys⟩ := ih ls' dg'
      have hfun : alistHasKey ls' = alistHasKey ls := funext ckeys
      constructor
      · rw [ihlen, clen, hfun]
        simp [hpl]
        omega
      · intro p
        rw [ihkeys p, ckeys p]

/-- Every `clients` list in the listening-services view is duplicate-free
    (as a list of `(client_process, client_pid)` records). -/
def lsClientsNodup (ls : List (Nat × ListeningService)) : Prop :=
  ∀ port e, alistFind? ls port = some e → e.clients.Nodup

theorem portDepConnStep_clientsNodup (name : String) (pid : Nat)
    (ls : List (Nat × ListeningService)) (dg : List DepEdge) (c : ConnInfo)
    (h : lsClientsNodup ls) :
    lsClientsNodup (portDepConnStep name pid (ls, dg) c).1 := by
  unfold portDepConnStep
  dsimp only
  by_cases hs : c.status ≠ "ESTABLISHED"
  · rw [if_pos hs]; exact h
  · rw [if_neg hs]
    match hre : c.remote_address with
    | none => exact h
    | some addr =>
      match hpa : parseRemoteAddr addr with
      | none => simpa [hpa] using h
      | some (ip, rport) =>
        by_cases hloc : portDepIsLocalIp ip = true
        · match hfind : alistFind? ls rport with
          | none => simpa [hpa, hloc, hfind] using h
          | some entry =>
            by_cases hmem : ({ client_process := name, client_pid := pid } :
                DepClient) ∈ entry.clients
            · simpa [hpa, hloc, hfind, hmem] using h
            · simp only [hpa, hloc, hfind, hmem, if_true, if_false]
              intro port e hf
              rw [alistFind?_update_eq] at hf
              by_cases hp : rport = port
              · subst hp
                rw [if_pos rfl, hfind] at hf
                simp only [Option.map, Option.some.injEq] at hf
                rw [← hf]
                dsimp only
                rw [List.nodup_append]
                refine ⟨h rport entry hfind, List.nodup_singleton _, ?_⟩
                intro a ha hb
                rw [List.mem_singleton] at hb
                subst hb
                exact hmem ha
              · rw [if_neg hp] at hf
                exact h port e hf
        · simpa [hpa, hloc] using h

theorem portDepConns_clientsNodup (name : String) (pid : Nat) :
    ∀ (conns : List ConnInfo) (ls : List (Nat × ListeningService))
      (dg : List DepEdge), lsClientsNodup ls →
      lsClientsNodup (conns.foldl (portDepConnStep name pid) (ls, dg)).1 := by
  intro conns
  induction conns with
  | nil => intro ls dg h; exact h
  | cons c rest ih =>
    intro ls dg h
    rw [List.foldl_cons]
    rcases hstep : portDepConnStep name pid (ls, dg) c with ⟨ls', dg'⟩
    have h' := portDepConnStep_clientsNodup name pid ls dg c h
    rw [hstep] at h'
    exact ih ls' dg' h'

theorem portDepPids_clientsNodup (procs : ProcTable) :
    ∀ (pcs : List (Nat × List ConnInfo)) (ls : List (Nat × ListeningService))
      (dg : List DepEdge), lsClientsNodup ls →
      lsClientsNodup (pcs.foldl (portDepPidStep procs) (ls, dg)).1 := by
  intro pcs
  induction pcs with
  | nil => intro ls dg h; exact h
  | cons e rest ih =>
    intro ls dg h
    rw [List.foldl_cons]
    match hpl : procLookup procs e.1 with
    | none =>
      have hstep0 : portDepPidStep procs (ls, dg) e = (ls, dg) := by
        unfold portDepPidStep; rw [hpl]
      rw [hstep0]
      exact ih ls dg h
    | some pr =>
      have hstep0 : portDepPidStep procs (ls, dg) e =
          e.2.foldl (portDepConnStep pr.name e.1) (ls, dg) := by
        unfold portDepPidStep; rw [hpl]
      rw [hstep0]
      rcases hstep : e.2.foldl (portDepConnStep pr.name e.1) (ls, dg) with ⟨ls', dg'⟩
      have h' := portDepConns_clientsNodup pr.name e.1 e.2 ls dg h
      rw [hstep] at h'
      exact ih ls' dg' h'

/-- Every client list in `service_clients` is duplicate-free by client
    process name. -/
def scNodup (m : CommMap) : Prop :=
  ∀ sv l, salistFind? m.service_clients sv = some l →
    (l.map (fun c => c.client)).Nodup

/-- `scNodup` lifted over the abort/continue sum. -/
def scNodupS : Sum CommMap CommMap → Prop
  | Sum.inl m => scNodup m
  | Sum.inr m => scNodup m

theorem scEnsure_nodup (sc : List (String × List ServiceClient)) (ts : String)
    (h : ∀ sv l, salistFind? sc sv = some l → (l.map (fun c => c.client)).Nodup) :
    ∀ sv l, salistFind? (if salistHasKey sc ts then sc else sc ++ [(ts, [])]) sv =
      some l → (l.map (fun c => c.client)).Nodup := by
  intro sv l hf
  by_cases hk : salistHasKey sc ts = true
  · rw [if_pos hk] at hf
    exact h sv l hf
  · rw [if_neg hk] at hf
    rw [salistFind?_append_single] at hf
    match hbase : salistFind? sc sv with
    | some l0 =>
      rw [hbase] at hf
      simp only [optOr_some, Option.some.injEq] at hf
      subst hf
      exact h sv l0 hbase
    | none =>
      rw [hbase] at hf
      simp only [optOr_none] at hf
      by_cases hts : ts = sv
      · rw [if_pos hts] at hf
        cases hf
        simp
      · rw [if_neg hts] at hf
        cases hf


theorem commConnStep_scNodup (psm : List (Nat × PortService)) (name : String)
    (pid : Nat) (m : CommMap) (c : ConnInfo) (h : scNodup m) :
    scNodupS (commConnStep psm name pid m c) := by
  unfold commConnStep
  dsimp only
  split
  swap
  · exact h
  · split
    · exact h
    · split
      · exact h
      · next rip rport heq2 =>
        split
        · exact h
        · split
          · -- local branch
            dsimp only [scNodupS]
            intro sv l hf
            dsimp only at hf
            split at hf
            case h_2 =>
              rw [apply_ite (fun mm : CommMap => mm.service_clients)] at hf
              dsimp only at hf
              exact scEnsure_nodup m.service_clients _ h sv l hf
            case h_1 cs heq =>
              split at hf
              case isTrue =>
                rw [apply_ite (fun mm : CommMap => mm.service_clients)] at hf
                dsimp only at hf
                exact scEnsure_nodup m.service_clients _ h sv l hf
              case isFalse hname =>
                dsimp only at hf
                rw [apply_ite (fun mm : CommMap => mm.service_clients)] at heq
                dsimp only at heq
                rw [apply_ite (fun mm : CommMap => mm.service_clients)] at hf
                dsimp only at hf
                rw [salistFind?_update_eq] at hf
                by_cases hts : commTargetService psm rport = sv
                · rw [if_pos hts, hts] at hf
                  rw [hts] at heq
                  rw [heq] at hf
                  simp only [Option.map, Option.some.injEq] at hf
                  subst hf
                  rw [List.map_append]
                  rw [List.nodup_append]
                  refine ⟨scEnsure_nodup m.service_clients _ h sv cs heq, ?_, ?_⟩
                  · simp
                  · intro a ha hb
                    simp only [List.map_cons, List.map_nil,
                      List.mem_singleton] at hb
                    subst hb
                    exact hname ha
                · rw [if_neg hts] at hf
                  exact scEnsure_nodup m.service_clients _ h sv l hf
          · -- external branch: service_clients untouched
            dsimp only [scNodupS]
            intro sv l hf
            dsimp only at hf
            exact h sv l hf

theorem commConnsFold_scNodup (psm : List (Nat × PortService)) (name : String)
    (pid : Nat) :
    ∀ (conns : List ConnInfo) (m : CommMap), scNodup m →
      scNodupS (commConnsFold psm name pid m conns) := by
  intro conns
  induction conns with
  | nil => intro m h; exact h
  | cons c rest ih =>
    intro m h
    unfold commConnsFold
    have hstep := commConnStep_scNodup psm name pid m c h
    match hc : commConnStep psm name pid m c with
    | Sum.inl m' =>
      rw [hc] at hstep
      exact hstep
    | Sum.inr m' =>
      rw [hc] at hstep
      exact ih m' hstep

theorem commPidStep_scNodup (procs : ProcTable) (psm : List (Nat × PortService))
    (m : CommMap) (e : Nat × List ConnInfo) (h : scNodup m) :
    scNodupS (commPidStep procs psm m e) := by
  unfold commPidStep
  match hpl : procLookup procs e.1 with
  | none => exact h
  | some pr =>
    dsimp only
    refine commConnsFold_scNodup psm pr.name e.1 e.2 _ ?_
    by_cases hk : salistHasKey m.process_to_service pr.name = true
    · rw [if_pos hk]; exact h
    · rw [if_neg hk]
      intro sv l hf
      exact h sv l hf

theorem commPidsFold_scNodup (procs : ProcTable) (psm : List (Nat × PortService)) :
    ∀ (pcs : List (Nat × List ConnInfo)) (m : CommMap), scNodup m →
      scNodup (commPidsFold procs psm m pcs) := by
  intro pcs
  induction pcs with
  | nil => intro m h; exact h
  | cons e rest ih =>
    intro m h
    unfold commPidsFold
    have hstep := commPidStep_scNodup procs psm m e h
    match hc : commPidStep procs psm m e with
    | Sum.inl m' =>
      rw [hc] at hstep
      exact hstep
    | Sum.inr m' =>
      rw [hc] at hstep
      exact ih m' hstep

/-- C1 amended: two ESTABLISHED loopback connections from same-named
    client processes to the same listening port produce exactly one
    client entry per service in `service_clients` (deduplicated by client
    process name), and the per-port `clients` lists are deduplicated by
    the whole `(client_process, client_pid)` record — i.e. by pid too —
    while `dependency_graph` is not deduplicated at all: it carries
    exactly one edge per qualifying connection. -/
theorem C1_dedup_semantics (procs : ProcTable) (psm : List (Nat × PortService))
    (pcs : List (Nat × List ConnInfo)) :
    ((get_port_dependencies procs psm pcs).dependency_graph.length =
      pdEdgeCount procs psm pcs) ∧
    (∀ sv l, salistFind? (get_application_communication_map procs psm
        pcs).service_clients sv = some l →
      (l.map (fun c => c.client)).Nodup) ∧
    (∀ port e, alistFind? (get_port_dependencies procs psm
        pcs).listening_services port = some e → e.clients.Nodup) := by
  have hkeys : ∀ p, alistHasKey (psm.map (fun (kv : Nat × PortService) =>
      (kv.1, ({ service := kv.2.service, pid := kv.2.pid,
                well_known_service := identify_service_by_port kv.1,
                clients := [] } : ListeningService)))) p = alistHasKey psm p := by
    intro p
    unfold alistHasKey
    rw [alistFind?_map_keyed psm (fun k v =>
      ({ service := v.service, pid := v.pid,
         well_known_service := identify_service_by_port k,
         clients := [] } : ListeningService)) p]
    cases alistFind? psm p <;> rfl
  refine ⟨?_, ?_, ?_⟩
  · unfold get_port_dependencies
    dsimp only
    rcases hfold : pcs.foldl (portDepPidStep procs)
        (psm.map (fun (kv : Nat × PortService) =>
          (kv.1, ({ service := kv.2.service, pid := kv.2.pid,
                    well_known_service := identify_service_by_port kv.1,
                    clients := [] } : ListeningService))), []) with ⟨ls, dg⟩
    obtain ⟨hlen, _⟩ := portDepPids_len procs pcs _ []
    rw [hfold] at hlen
    dsimp only at hlen ⊢
    rw [hlen]
    unfold pdEdgeCount
    have : (alistHasKey (psm.map (fun (kv : Nat × PortService) =>
        (kv.1, ({ service := kv.2.service, pid := kv.2.pid,
                  well_known_service := identify_service_by_port kv.1,
                  clients := [] } : ListeningService))))) = alistHasKey psm :=
      funext hkeys
    rw [this]
    simp
  · intro sv l hf
    have h0 : scNodup commInit := by
      intro sv' l' hf'
      simp [commInit, salistFind?] at hf'
    have := commPidsFold_scNodup procs psm pcs commInit h0
    exact this sv l hf
  · intro port e hf
    have h0 : lsClientsNodup (psm.map (fun (kv : Nat × PortService) =>
        (kv.1, ({ service := kv.2.service, pid := kv.2.pid,
                  well_known_service := identify_service_by_port kv.1,
                  clients := [] } : ListeningService)))) := by
      intro port' e' hf'
      rw [alistFind?_map_keyed psm (fun k v =>
        ({ service := v.service, pid := v.pid,
           well_known_service := identify_service_by_port k,
           clients := [] } : ListeningService)) port'] at hf'
      match hpsm : alistFind? psm port' with
      | none => rw [hpsm] at hf'; cases hf'
      | some v =>
        rw [hpsm] at hf'
        simp only [Option.map, Option.some.injEq] at hf'
        rw [← hf']
        exact List.nodup_nil
    have hinv := portDepPids_clientsNodup procs pcs _ [] h0
    unfold get_port_dependencies at hf
    dsimp only at hf
    exact hinv port e hf

/-- Witness for C1 on the two-connection snapshot: the edge count equals
    the qualifying-connection count (which is 2), and both dedup views
    hold at their concrete entries. -/
theorem C1_dedup_semantics_witness :
    pdEdgeCount c2procs c1net.port_service_map c1net.process_connections = 2 ∧
    c1deps.dependency_graph.length =
      pdEdgeCount c2procs c1net.port_service_map c1net.process_connections ∧
    (([{ client := "app", client_pid := 20, port := 5432 }] :
      List ServiceClient).map (fun c => c.client)).Nodup ∧
    ([{ client_process := "app", client_pid := 20 }] : List DepClient).Nodup := by
  refine ⟨by decide, ?_, ?_, ?_⟩
  · exact (C1_dedup_semantics c2procs c1net.port_service_map
      c1net.process_connections).1
  · exact (C1_dedup_semantics c2procs c1net.port_service_map
      c1net.process_connections).2.1 "postgres"
      [{ client := "app", client_pid := 20, port := 5432 }] (by decide)
  · exact (C1_dedup_semantics c2procs c1net.port_service_map
      c1net.process_connections).2.2 5432
      { service := "postgres", pid := some 10,
        well_known_service := "PostgreSQL",
        clients := [{ client_process := "app", client_pid := 20 }] } (by decide)

/-! ## C9: both CPU collectors are total and structurally complete -/

theorem salistSet_find {α : Type} (d : List (String × α)) (k p : String) (v : α) :
    salistFind? (salistSet d k v) p = if k = p then some v else salistFind? d p := by
  induction d with
  | nil =>
    by_cases h : k = p <;> simp [salistSet, salistFind?, h]
  | cons hd tl ih =>
    obtain ⟨k₁, v₁⟩ := hd
    by_cases h1 : k₁ = k
    · subst h1
      by_cases h2 : k₁ = p <;> simp [salistSet, salistFind?, h2]
    · by_cases h2 : k₁ = p
      · subst h2
        have : k ≠ k₁ := fun he => h1 he.symm
        simp [salistSet, salistFind?, h1, this]
      · simp [salistSet, salistFind?, h1, h2, ih]

/-- The five keys of the claim are present in the dict. -/
def cpuKeysPresent (d : CpuDict) : Prop :=
  (salistFind? d "available").isSome ∧ (salistFind? d "date").isSome ∧
  (salistFind? d "average").isSome ∧ (salistFind? d "hourly_data").isSome ∧
  (salistFind? d "error").isSome

theorem cpuSet_find_isSome (d : CpuDict) (k p : String) (v : PyVal)
    (h : (salistFind? d p).isSome = true) :
    (salistFind? (cpuSet d k v) p).isSome = true := by
  unfold cpuSet
  rw [salistSet_find]
  by_cases hk : k = p
  · simp [hk]
  · simp [hk, h]

theorem cpuSet_keysPresent {d : CpuDict} (k : String) (v : PyVal)
    (h : cpuKeysPresent d) : cpuKeysPresent (cpuSet d k v) := by
  obtain ⟨h1, h2, h3, h4, h5⟩ := h
  exact ⟨cpuSet_find_isSome d k _ v h1, cpuSet_find_isSome d k _ v h2,
    cpuSet_find_isSome d k _ v h3, cpuSet_find_isSome d k _ v h4,
    cpuSet_find_isSome d k _ v h5⟩

theorem cpuAppendRow_keysPresent {d : CpuDict} (row : SarRow)
    (h : cpuKeysPresent d) : cpuKeysPresent (cpuAppendRow d row) := by
  unfold cpuAppendRow
  match salistFind? d "hourly_data" with
  | some (.sarRows rs) => exact cpuSet_keysPresent _ _ h
  | some .pyNone | some (.pyBool _) | some (.pyStr _) | some (.pyNat _)
  | some .emptyDict | some (.strList _) | some (.sarAvg _) | some (.winAvg _)
  | some (.winRows _) | some (.debugInfo _ _ _) | none => exact h

theorem sarParseLine_keysPresent {d : CpuDict} (line : String)
    (h : cpuKeysPresent d) :
    (∀ e, sarParseLine d line = Sum.inl e → cpuKeysPresent e.1) ∧
    (∀ d', sarParseLine d line = Sum.inr d' → cpuKeysPresent d') := by
  unfold sarParseLine sarAverageLine sarDataLine
  constructor <;> intro x hx <;> dsimp only at hx
  · split at hx
    · cases hx
    · split at hx
      · split at hx
        · split at hx <;> cases hx
          exact h
        · cases hx
      · split at hx <;> cases hx
  · split at hx
    · cases hx; exact h
    · split at hx
      · split at hx
        · split at hx
          · cases hx
            exact cpuSet_keysPresent _ _ h
          · cases hx
        · cases hx; exact h
      · split at hx
        · split at hx
          · split at hx
            · split at hx
              · cases hx
                exact cpuAppendRow_keysPresent _ h
              · cases hx; exact h
            · cases hx; exact h
          · cases hx; exact h
        · cases hx; exact h

theorem sarParseLines_keysPresent :
    ∀ (lines : List String) (d : CpuDict), cpuKeysPresent d →
    (∀ e, sarParseLines d lines = Sum.inl e → cpuKeysPresent e.1) ∧
    (∀ d', sarParseLines d lines = Sum.inr d' → cpuKeysPresent d') := by
  intro lines
  induction lines with
  | nil =>
    intro d h
    constructor <;> intro x hx <;> unfold sarParseLines at hx <;> cases hx
    exact h
  | cons l rest ih =>
    intro d h
    have hline := sarParseLine_keysPresent l h
    constructor <;> intro x hx <;> unfold sarParseLines at hx
    · match hl : sarParseLine d l with
      | Sum.inl e =>
        rw [hl] at hx
        cases hx
        exact hline.1 _ hl
      | Sum.inr d' =>
        rw [hl] at hx
        exact (ih d' (hline.2 _ hl)).1 _ hx
    · match hl : sarParseLine d l with
      | Sum.inl e =>
        rw [hl] at hx
        cases hx
      | Sum.inr d' =>
        rw [hl] at hx
        exact (ih d' (hline.2 _ hl)).2 _ hx

theorem linux_cpu_keysPresent (env : SarEnv) :
    cpuKeysPresent (get_previous_day_cpu_utilization_linux env) := by
  have h0 : cpuKeysPresent cpuInitLinux := by
    refine ⟨?_, ?_, ?_, ?_, ?_⟩ <;> decide
  unfold get_previous_day_cpu_utilization_linux
  dsimp only
  by_cases hex : env.saFileExists
  · simp only [hex]
    match env.sarRun with
    | .toolMissing => exact cpuSet_keysPresent _ _ h0
    | .timedOut => exact cpuSet_keysPresent _ _ h0
    | .completed rc out errTxt =>
      dsimp only
      by_cases hrc : rc = 0
      · rw [if_pos hrc]
        have h3 : cpuKeysPresent (cpuSet (cpuSet (cpuSet cpuInitLinux
            "available" (.pyBool true)) "date" (.pyStr env.dateStr))
            "raw_output" (.pyStr out)) :=
          cpuSet_keysPresent _ _ (cpuSet_keysPresent _ _ (cpuSet_keysPresent _ _ h0))
        have hp := sarParseLines_keysPresent (pySplitChar (pyStrip out) '\n') _ h3
        match hres : sarParseLines (cpuSet (cpuSet (cpuSet cpuInitLinux
            "available" (.pyBool true)) "date" (.pyStr env.dateStr))
            "raw_output" (.pyStr out)) (pySplitChar (pyStrip out) '\n') with
        | Sum.inr d' => exact hp.2 _ hres
        | Sum.inl e =>
          rcases e with ⟨d', tok⟩
          exact cpuSet_keysPresent _ _ (hp.1 _ hres)
      · rw [if_neg hrc]
        exact cpuSet_keysPresent _ _ h0
  · simp only [hex]
    exact cpuSet_keysPresent _ _ h0

theorem appendFileError_keysPresent {d : CpuDict} (msg : String)
    (h : cpuKeysPresent d) : cpuKeysPresent (appendFileError d msg) := by
  unfold appendFileError
  exact cpuSet_keysPresent _ _ h

theorem winCsvFile_keysPresent (st : (List Rat × List WinRow) × CpuDict)
    (f : WinFile) (h : cpuKeysPresent st.2) :
    cpuKeysPresent (winCsvFile st f).2 := by
  rcases st with ⟨acc, d⟩
  unfold winCsvFile
  dsimp only at h ⊢
  by_cases ho : f.openOk = true
  · rw [ho]
    rw [if_neg (by decide)]
    split
    · exact h
    · exact h
    · split
      · exact appendFileError_keysPresent _ h
      · exact h
  · have ho' : f.openOk = false := by simpa using ho
    rw [ho']
    rw [if_pos (by decide)]
    exact appendFileError_keysPresent _ h

theorem winCsvFold_keysPresent :
    ∀ (files : List WinFile) (st : (List Rat × List WinRow) × CpuDict),
    cpuKeysPresent st.2 → cpuKeysPresent (files.foldl winCsvFile st).2 := by
  intro files
  induction files with
  | nil => intro st h; exact h
  | cons f rest ih =>
    intro st h
    rw [List.foldl_cons]
    exact ih _ (winCsvFile_keysPresent st f h)

theorem winPublish_keysPresent (n : Nat) (acc : List Rat × List WinRow)
    {d : CpuDict} (h : cpuKeysPresent d) : cpuKeysPresent (winPublish n acc d) := by
  unfold winPublish
  rcases acc with ⟨cv, hd⟩
  dsimp only
  split
  · exact cpuSet_keysPresent _ _ (cpuSet_keysPresent _ _ (cpuSet_keysPresent _ _
      (cpuSet_keysPresent _ _ (cpuSet_keysPresent _ _ (cpuSet_keysPresent _ _ h)))))
  · exact cpuSet_keysPresent _ _ (cpuSet_keysPresent _ _ (cpuSet_keysPresent _ _ h))

theorem winCsvBranch_keysPresent (csvFiles : List WinFile) {d : CpuDict}
    (h : cpuKeysPresent d) : cpuKeysPresent (winCsvBranch csvFiles d) := by
  unfold winCsvBranch
  rcases hfold : csvFiles.foldl winCsvFile (([], []), d) with ⟨acc, d'⟩
  have := winCsvFold_keysPresent csvFiles (([], []), d) h
  rw [hfold] at this
  exact winPublish_keysPresent _ _ this

theorem winBlgBranch_keysPresent (env : WinEnv) {d : CpuDict}
    (h : cpuKeysPresent d) : cpuKeysPresent (winBlgBranch env d) := by
  unfold winBlgBranch
  match env.relog with
  | .raised msg => exact cpuSet_keysPresent _ _ h
  | .completed rc stderr =>
    dsimp only
    split
    · split
      · exact cpuSet_keysPresent _ _ h
      · match env.relogRows with
        | [] => exact h
        | firstRow :: rest =>
          dsimp only
          split
          · exact cpuSet_keysPresent _ _ (cpuSet_keysPresent _ _
              (cpuSet_keysPresent _ _ (cpuSet_keysPresent _ _
                (cpuSet_keysPresent _ _ (cpuSet_keysPresent _ _ h)))))
          · exact h
    · exact cpuSet_keysPresent _ _ h

theorem winNoteIfUnavailable_keysPresent {d : CpuDict}
    (h : cpuKeysPresent d) : cpuKeysPresent (winNoteIfUnavailable d) := by
  unfold winNoteIfUnavailable
  split
  · exact h
  · exact cpuSet_keysPresent _ _ h

theorem windows_cpu_keysPresent (env : WinEnv) :
    cpuKeysPresent (get_previous_day_cpu_utilization_windows env) := by
  have h0 : cpuKeysPresent cpuInitLinux := by
    refine ⟨?_, ?_, ?_, ?_, ?_⟩ <;> decide
  have h1 : cpuKeysPresent (cpuSet cpuInitLinux "date" (.pyStr env.dateStr)) :=
    cpuSet_keysPresent _ _ h0
  unfold get_previous_day_cpu_utilization_windows
  dsimp only
  by_cases hd : env.dirExists
  · simp only [hd]
    by_cases hcsv : List.filter
        (fun f => !pyEndsWith f.name ".blg" && pyEndsWith f.name ".csv")
        (List.filter (fun f => f.statOk && f.recent) env.files) ≠ []
    · simp only [if_pos hcsv]
      rw [if_pos trivial]
      exact winNoteIfUnavailable_keysPresent (winCsvBranch_keysPresent _
        (cpuSet_keysPresent _ _ (cpuSet_keysPresent _ _ h1)))
    · simp only [if_neg hcsv]
      by_cases hlog : List.filter (fun f => pyEndsWith f.name ".blg")
          (List.filter (fun f => f.statOk && f.recent) env.files) ≠ []
      · rw [if_pos hlog]
        exact winNoteIfUnavailable_keysPresent (winBlgBranch_keysPresent _
          (cpuSet_keysPresent _ _ (cpuSet_keysPresent _ _ h1)))
      · rw [if_neg hlog]
        exact cpuSet_keysPresent _ _ (cpuSet_keysPresent _ _ h1)
  · have hd' : env.dirExists = false := by simpa using hd
    rw [hd']
    simp only [Bool.false_eq_true, if_false]
    split
    · exact cpuSet_keysPresent _ _ h1
    · split
      · exact cpuSet_keysPresent _ _ (cpuSet_keysPresent _ _ h1)
      · split
        · exact cpuSet_keysPresent _ _ (cpuSet_keysPresent _ _ h1)
        · exact cpuSet_keysPresent _ _ (cpuSet_keysPresent _ _ h1)

/-- C9, confirmed.  Both previous-day CPU collectors are total functions
    of their environment facts (no exception escapes: every failure path
    is a value), and every returned dict contains the keys `available`,
    `date`, `average`, `hourly_data` and `error`. -/
theorem C9_collectors_total_structure :
    (∀ env : SarEnv, cpuKeysPresent (get_previous_day_cpu_utilization_linux env)) ∧
    (∀ env : WinEnv, cpuKeysPresent (get_previous_day_cpu_utilization_windows env)) :=
  ⟨linux_cpu_keysPresent, windows_cpu_keysPresent⟩

/-! ## C3: the two-state invariant of a UtilizationSeries -/

theorem cpuSet_find_other (d : CpuDict) (k p : String) (v : PyVal) (h : k ≠ p) :
    salistFind? (cpuSet d k v) p = salistFind? d p := by
  unfold cpuSet
  rw [salistSet_find, if_neg h]

theorem cpuAppendRow_find_other (d : CpuDict) (row : SarRow) (p : String)
    (h : p ≠ "hourly_data") : salistFind? (cpuAppendRow d row) p = salistFind? d p := by
  unfold cpuAppendRow
  split
  · rw [cpuSet_find_other _ _ _ _ (fun he => h he.symm)]
  · rfl

theorem sarParseLine_find_other (d : CpuDict) (line : String) (p : String)
    (h1 : p ≠ "average") (h2 : p ≠ "hourly_data") :
    (∀ e, sarParseLine d line = Sum.inl e → salistFind? e.1 p = salistFind? d p) ∧
    (∀ d', sarParseLine d line = Sum.inr d' → salistFind? d' p = salistFind? d p) := by
  unfold sarParseLine sarAverageLine sarDataLine
  constructor <;> intro x hx <;> dsimp only at hx
  · split at hx
    · cases hx
    · split at hx
      · split at hx
        · split at hx <;> cases hx
          rfl
        · cases hx
      · split at hx <;> cases hx
  · split at hx
    · cases hx; rfl
    · split at hx
      · split at hx
        · split at hx
          · cases hx
            exact cpuSet_find_other _ _ _ _ (fun he => h1 he.symm)
          · cases hx
        · cases hx; rfl
      · split at hx
        · split at hx
          · split at hx
            · split at hx
              · cases hx
                exact cpuAppendRow_find_other _ _ _ h2
              · cases hx; rfl
            · cases hx; rfl
          · cases hx; rfl
        · cases hx; rfl

theorem sarParseLines_find_other :
    ∀ (lines : List String) (d : CpuDict) (p : String), p ≠ "average" →
      p ≠ "hourly_data" →
    (∀ e, sarParseLines d lines = Sum.inl e → salistFind? e.1 p = salistFind? d p) ∧
    (∀ d', sarParseLines d lines = Sum.inr d' → salistFind? d' p = salistFind? d p) := by
  intro lines
  induction lines with
  | nil =>
    intro d p h1 h2
    constructor <;> intro x hx <;> unfold sarParseLines at hx <;> cases hx
    rfl
  | cons l rest ih =>
    intro d p h1 h2
    have hline := sarParseLine_find_other d l p h1 h2
    constructor <;> intro x hx <;> unfold sarParseLines at hx
    · match hl : sarParseLine d l with
      | Sum.inl e =>
        rw [hl] at hx
        cases hx
        exact hline.1 _ hl
      | Sum.inr d' =>
        rw [hl] at hx
        rw [(ih d' p h1 h2).1 _ hx]
        exact hline.2 _ hl
    · match hl : sarParseLine d l with
      | Sum.inl e =>
        rw [hl] at hx
        cases hx
      | Sum.inr d' =>
        rw [hl] at hx
        rw [(ih d' p h1 h2).2 _ hx]
        exact hline.2 _ hl

/-- An environment on which the Windows collector loses the diagnostic:
    one recent binary log, `relog` exits nonzero. -/
def winRelogFailEnv : WinEnv :=
  { dateStr := "2026-10-11", dirExists := true,
    files := [{ name := "cpu_log.blg", statOk := true, recent := true,
                openOk := true, errMsg := "", rows := [] }],
    pmExists := true, pmRunning := true, pmStatusRaises := false,
    pmStatusMsg := "", relog := .completed 1 "relog conversion failed",
    relogCsvExists := false, relogOpenOk := true, relogOpenMsg := "",
    relogRows := [] }

/-- C3 amended: on Linux the series satisfies only one direction of the
    claimed invariant — `available = false` implies a populated (non-null)
    error — while `available = true` does **not** guarantee a non-empty
    sample sequence; and on Windows even that direction fails: a relog
    failure leaves `available = false` with `error = null`, the diagnostic
    going to `relog_error` instead. -/
theorem C3_series_states :
    (∀ env : SarEnv,
      salistFind? (get_previous_day_cpu_utilization_linux env) "available" =
        some (.pyBool true) ∨
      (∃ s, salistFind? (get_previous_day_cpu_utilization_linux env) "error" =
        some (.pyStr s))) ∧
    (salistFind? (get_previous_day_cpu_utilization_windows winRelogFailEnv)
        "available" = some (.pyBool false) ∧
     salistFind? (get_previous_day_cpu_utilization_windows winRelogFailEnv)
        "error" = some .pyNone ∧
     salistFind? (get_previous_day_cpu_utilization_windows winRelogFailEnv)
        "relog_error" = some (.pyStr "relog conversion failed")) := by
  constructor
  · intro env
    unfold get_previous_day_cpu_utilization_linux
    dsimp only
    by_cases hex : env.saFileExists
    · simp only [hex]
      match env.sarRun with
      | .toolMissing =>
        right
        exact ⟨"sar command not found. Install sysstat package.",
          by simp [cpuSet, salistSet, cpuInitLinux, salistFind?]⟩
      | .timedOut =>
        right
        exact ⟨"sar command timed out",
          by simp [cpuSet, salistSet, cpuInitLinux, salistFind?]⟩
      | .completed rc out errTxt =>
        dsimp only
        by_cases hrc : rc = 0
        · rw [if_pos hrc]
          left
          have hav : salistFind? (cpuSet (cpuSet (cpuSet cpuInitLinux
              "available" (.pyBool true)) "date" (.pyStr env.dateStr))
              "raw_output" (.pyStr out)) "available" = some (.pyBool true) := by
            simp [cpuSet, salistSet, cpuInitLinux, salistFind?]
          have hp := sarParseLines_find_other (pySplitChar (pyStrip out) '\n')
            (cpuSet (cpuSet (cpuSet cpuInitLinux "available" (.pyBool true))
              "date" (.pyStr env.dateStr)) "raw_output" (.pyStr out))
            "available" (by decide) (by decide)
          match hres : sarParseLines (cpuSet (cpuSet (cpuSet cpuInitLinux
              "available" (.pyBool true)) "date" (.pyStr env.dateStr))
              "raw_output" (.pyStr out)) (pySplitChar (pyStrip out) '\n') with
          | Sum.inr d' =>
            exact (hp.2 _ hres).trans hav
          | Sum.inl e =>
            exact ((cpuSet_find_other e.1 "error" "available" _ (by decide)).trans
              ((hp.1 _ hres).trans hav))
        · rw [if_neg hrc]
          right
          exact ⟨"sar command failed: " ++ errTxt,
            by simp [cpuSet, salistSet, cpuInitLinux, salistFind?]⟩
    · simp only [hex]
      right
      exact ⟨"Sysstat file not found: " ++
          ((if env.hasRpm then "/var/log/sa/sa" else "/var/log/sysstat/sa") ++
            env.dayStr),
        by simp [cpuSet, salistSet, cpuInitLinux, salistFind?]⟩
  · refine ⟨?_, ?_, ?_⟩ <;> decide

/-- The Linux environment of the C3 counterexample: the sar conversion
    exits 0 but its output contains no parseable rows. -/
def sarEmptyEnv : SarEnv :=
  { hasRpm := false, dayStr := "11", dateStr := "2026-10-11",
    saFileExists := true, sarRun := .completed 0 "" "" }

/-- C3, counterexample: with a zero-exit sar run producing no parseable
    rows, the returned series has `available = true`, an **empty** sample
    sequence, and a null error — a state the claim says is never
    returned. -/
theorem C3_counterexample :
    salistFind? (get_previous_day_cpu_utilization_linux sarEmptyEnv)
      "available" = some (.pyBool true) ∧
    salistFind? (get_previous_day_cpu_utilization_linux sarEmptyEnv)
      "hourly_data" = some (.sarRows []) ∧
    salistFind? (get_previous_day_cpu_utilization_linux sarEmptyEnv)
      "error" = some .pyNone := by
  refine ⟨?_, ?_, ?_⟩ <;> decide

/-! ## C7: helper-subprocess timeout / nonzero-exit handling -/

theorem cpuSet_find_eq (d : CpuDict) (k : String) (v : PyVal) :
    salistFind? (cpuSet d k v) k = some v := by
  unfold cpuSet
  rw [salistSet_find, if_pos rfl]

theorem winBlgBranch_raised (env : WinEnv) (msg : String) (d : CpuDict)
    (h : env.relog = .raised msg) :
    winBlgBranch env d = cpuSet d "extraction_error" (.pyStr msg) := by
  unfold winBlgBranch
  rw [h]

theorem winBlgBranch_relog_fail (env : WinEnv) (rc : Int) (stderrTxt : String)
    (d : CpuDict) (h : env.relog = .completed rc stderrTxt) (hrc : rc ≠ 0) :
    winBlgBranch env d = cpuSet d "relog_error" (.pyStr stderrTxt) := by
  unfold winBlgBranch
  rw [h]
  dsimp only
  rw [if_neg (by simp [hrc])]

theorem winNote_unavailable (d : CpuDict)
    (h : salistFind? d "available" = some (.pyBool false)) :
    winNoteIfUnavailable d = cpuSet d "note" (.pyStr
      "Performance Monitor logs found but data extraction needs more time or configuration.") := by
  unfold winNoteIfUnavailable
  rw [h]

theorem windows_blg_path (env : WinEnv)
    (hdir : env.dirExists = true)
    (hcsv : List.filter (fun f => !pyEndsWith f.name ".blg" && pyEndsWith f.name ".csv")
        (List.filter (fun f => f.statOk && f.recent) env.files) = [])
    (hlog : List.filter (fun f => pyEndsWith f.name ".blg")
        (List.filter (fun f => f.statOk && f.recent) env.files) ≠ []) :
    get_previous_day_cpu_utilization_windows env =
      winNoteIfUnavailable (winBlgBranch env
        (cpuSet (cpuSet (cpuSet cpuInitLinux "date" (.pyStr env.dateStr))
            "log_files_found"
            (.strList ((List.filter (fun f => pyEndsWith f.name ".blg")
              (List.filter (fun f => f.statOk && f.recent) env.files)).map
                (fun f : WinFile => f.name))))
          "file_type" (.pyStr "blg"))) := by
  have hcsv' : ¬(List.filter (fun f => !pyEndsWith f.name ".blg" && pyEndsWith f.name ".csv")
      (List.filter (fun f => f.statOk && f.recent) env.files) ≠ []) := fun h => h hcsv
  unfold get_previous_day_cpu_utilization_windows
  dsimp only
  simp only [hdir]
  simp only [if_neg hcsv']
  rw [if_pos trivial]
  rw [if_pos hlog]

/-- C7 amended: the two platforms diverge.  On Linux a sar timeout or
    nonzero exit is indeed a soft failure with `available = false` and a
    non-empty diagnostic in `error`.  On Windows a relog timeout (modelled
    as a raise caught at line 870) or nonzero exit is soft and keeps
    `available = false`, but the diagnostic lands in `extraction_error` /
    `relog_error` respectively while `error` stays null, so the "non-empty
    `error`" part of the claim fails there.  In all cases the surrounding
    pipeline returns the complete 18-key top-level structure. -/
theorem C7_helper_failure_handling :
    (∀ env : SarEnv, env.saFileExists = true → env.sarRun = .timedOut →
      salistFind? (get_previous_day_cpu_utilization_linux env) "available" =
        some (.pyBool false) ∧
      salistFind? (get_previous_day_cpu_utilization_linux env) "error" =
        some (.pyStr "sar command timed out")) ∧
    (∀ (env : SarEnv) (rc : Int) (out errTxt : String),
      env.saFileExists = true → env.sarRun = .completed rc out errTxt → rc ≠ 0 →
      salistFind? (get_previous_day_cpu_utilization_linux env) "available" =
        some (.pyBool false) ∧
      salistFind? (get_previous_day_cpu_utilization_linux env) "error" =
        some (.pyStr ("sar command failed: " ++ errTxt))) ∧
    (∀ (env : WinEnv) (msg : String),
      env.dirExists = true →
      List.filter (fun f => !pyEndsWith f.name ".blg" && pyEndsWith f.name ".csv")
        (List.filter (fun f => f.statOk && f.recent) env.files) = [] →
      List.filter (fun f => pyEndsWith f.name ".blg")
        (List.filter (fun f => f.statOk && f.recent) env.files) ≠ [] →
      env.relog = .raised msg →
      salistFind? (get_previous_day_cpu_utilization_windows env) "available" =
        some (.pyBool false) ∧
      salistFind? (get_previous_day_cpu_utilization_windows env) "error" =
        some .pyNone ∧
      salistFind? (get_previous_day_cpu_utilization_windows env)
        "extraction_error" = some (.pyStr msg)) ∧
    (∀ (env : WinEnv) (rc : Int) (stderrTxt : String),
      env.dirExists = true →
      List.filter (fun f => !pyEndsWith f.name ".blg" && pyEndsWith f.name ".csv")
        (List.filter (fun f => f.statOk && f.recent) env.files) = [] →
      List.filter (fun f => pyEndsWith f.name ".blg")
        (List.filter (fun f => f.statOk && f.recent) env.files) ≠ [] →
      env.relog = .completed rc stderrTxt → rc ≠ 0 →
      salistFind? (get_previous_day_cpu_utilization_windows env) "available" =
        some (.pyBool false) ∧
      salistFind? (get_previous_day_cpu_utilization_windows env) "error" =
        some .pyNone ∧
      salistFind? (get_previous_day_cpu_utilization_windows env)
        "relog_error" = some (.pyStr stderrTxt)) ∧
    (∀ (procs : ProcTable) (facts : List ConnFact) (cpuEnv : SarEnv),
      (collect_all procs facts cpuEnv).map Prod.fst =
        ["timestamp", "system", "os", "cpu", "cpu_history_previous_day",
         "sysstat_service_status", "memory", "disks", "network",
         "service_dependencies", "application_communication",
         "port_dependencies", "docker", "firewall", "users", "packages",
         "services", "top_processes"]) := by
  refine ⟨?_, ?_, ?_, ?_, ?_⟩
  · intro env hsa hrun
    have heq : get_previous_day_cpu_utilization_linux env =
        cpuSet cpuInitLinux "error" (.pyStr "sar command timed out") := by
      unfold get_previous_day_cpu_utilization_linux
      rw [hsa, hrun]
      dsimp only
      rw [if_neg (show ¬((!true) = true) by decide)]
    rw [heq]
    refine ⟨?_, ?_⟩ <;> simp [cpuSet, salistSet, cpuInitLinux, salistFind?]
  · intro env rc out errTxt hsa hrun hrc
    have heq : get_previous_day_cpu_utilization_linux env =
        cpuSet cpuInitLinux "error"
          (.pyStr ("sar command failed: " ++ errTxt)) := by
      unfold get_previous_day_cpu_utilization_linux
      rw [hsa, hrun]
      dsimp only
      rw [if_neg (show ¬((!true) = true) by decide), if_neg hrc]
    rw [heq]
    refine ⟨?_, ?_⟩ <;> simp [cpuSet, salistSet, cpuInitLinux, salistFind?]
  · intro env msg hdir hcsv hlog hrel
    rw [windows_blg_path env hdir hcsv hlog]
    rw [winBlgBranch_raised env msg _ hrel]
    rw [winNote_unavailable _
      (by simp [cpuSet, salistSet, cpuInitLinux, salistFind?])]
    refine ⟨?_, ?_, ?_⟩ <;> simp [cpuSet, salistSet, cpuInitLinux, salistFind?]
  · intro env rc stderrTxt hdir hcsv hlog hrel hrc
    rw [windows_blg_path env hdir hcsv hlog]
    rw [winBlgBranch_relog_fail env rc stderrTxt _ hrel hrc]
    rw [winNote_unavailable _
      (by simp [cpuSet, salistSet, cpuInitLinux, salistFind?])]
    refine ⟨?_, ?_, ?_⟩ <;> simp [cpuSet, salistSet, cpuInitLinux, salistFind?]
  · intro procs facts cpuEnv
    rfl

/-- A Linux environment whose sar invocation times out. -/
def sarTimeoutEnv : SarEnv :=
  { hasRpm := true, dayStr := "11", dateStr := "2026-10-11",
    saFileExists := true, sarRun := .timedOut }

/-- A Windows environment whose relog invocation exits nonzero. -/
def winRelogExitEnv : WinEnv :=
  { dateStr := "2026-10-11", dirExists := true,
    files := [{ name := "cpu_log.blg", statOk := true, recent := true,
                openOk := true, errMsg := "", rows := [] }],
    pmExists := true, pmRunning := true, pmStatusRaises := false,
    pmStatusMsg := "", relog := .completed 2 "Access is denied.",
    relogCsvExists := false, relogOpenOk := true, relogOpenMsg := "",
    relogRows := [] }

theorem C7_helper_failure_handling_witness :
    salistFind? (get_previous_day_cpu_utilization_linux sarTimeoutEnv) "error" =
      some (.pyStr "sar command timed out") ∧
    salistFind? (get_previous_day_cpu_utilization_windows winRelogExitEnv)
      "relog_error" = some (.pyStr "Access is denied.") ∧
    salistFind? (get_previous_day_cpu_utilization_windows winRelogExitEnv)
      "error" = some .pyNone :=
  ⟨(C7_helper_failure_handling.1 sarTimeoutEnv rfl rfl).2,
   (C7_helper_failure_handling.2.2.2.1 winRelogExitEnv 2 "Access is denied."
      rfl (by decide) (by decide) rfl (by decide)).2.2,
   (C7_helper_failure_handling.2.2.2.1 winRelogExitEnv 2 "Access is denied."
      rfl (by decide) (by decide) rfl (by decide)).2.1⟩

/-- A Windows environment whose relog invocation times out: the
    `subprocess.TimeoutExpired` raise lands in the `except Exception`
    handler at line 870. -/
def winRelogTimeoutEnv : WinEnv :=
  { dateStr := "2026-10-11", dirExists := true,
    files := [{ name := "cpu_log.blg", statOk := true, recent := true,
                openOk := true, errMsg := "", rows := [] }],
    pmExists := true, pmRunning := true, pmStatusRaises := false,
    pmStatusMsg := "", relog := .raised "relog timed out after 60 seconds",
    relogCsvExists := false, relogOpenOk := true, relogOpenMsg := "",
    relogRows := [] }

/-- C7, counterexample: a relog timeout on Windows is soft and keeps
    `available = false`, but `error` stays null — the diagnostic is only
    in `extraction_error`, so the claimed "non-empty `error`" does not
    hold. -/
theorem C7_counterexample :
    salistFind? (get_previous_day_cpu_utilization_windows winRelogTimeoutEnv)
      "available" = some (.pyBool false) ∧
    salistFind? (get_previous_day_cpu_utilization_windows winRelogTimeoutEnv)
      "error" = some .pyNone ∧
    salistFind? (get_previous_day_cpu_utilization_windows winRelogTimeoutEnv)
      "extraction_error" = some (.pyStr "relog timed out after 60 seconds") := by
  refine ⟨?_, ?_, ?_⟩ <;> decide

/-! ## C6: loopback classification of remote endpoints

The spec's classification rule speaks of the IPv4 loopback block
`127.0.0.0/8` and the IPv6 loopback `::1`.  `parseIPv4` recognises a
canonical dotted quad (four octets, decimal digits, no leading zeros,
each ≤ 255) — the form in which the process-table facts render IPv4
addresses — and `specIsLoopback` is the spec-side rule to compare the
code's classifiers against. -/

/-- A canonical decimal octet: nonempty digits, at most three, no leading
    zero unless the octet is exactly `0`, value at most 255. -/
def validOctet (cs : List Char) : Bool :=
  !cs.isEmpty && cs.all isDigitChar && cs.length ≤ 3 &&
  (cs.length == 1 || cs.headD '0' != '0') && digitsToNat cs ≤ 255

/-- Parse a canonical dotted-quad IPv4 address. -/
def parseIPv4 (ip : String) : Option (Nat × Nat × Nat × Nat) :=
  match splitCharAux '.' ip.data [] with
  | [a, b, c, d] =>
    if validOctet a && validOctet b && validOctet c && validOctet d then
      some (digitsToNat a, digitsToNat b, digitsToNat c, digitsToNat d)
    else none
  | _ => none

/-- The spec's classification rule: the remote ip is local iff it lies in
    `127.0.0.0/8` or is the IPv6 loopback `::1`. -/
def specIsLoopback (ip : String) : Bool :=
  (match parseIPv4 ip with
   | some o => o.1 = 127
   | none => false) || ip = "::1"

/-- Rejoin split components with the separator. -/
def joinSep (sep : Char) : List (List Char) → List Char
  | [] => []
  | [x] => x
  | x :: y :: rest => x ++ sep :: joinSep sep (y :: rest)

theorem splitCharAux_ne_nil (sep : Char) :
    ∀ (cs acc : List Char), splitCharAux sep cs acc ≠ [] := by
  intro cs
  induction cs with
  | nil => intro acc; simp [splitCharAux]
  | cons c cs ih =>
    intro acc
    unfold splitCharAux
    by_cases hc : c = sep
    · rw [if_pos hc]; simp
    · rw [if_neg hc]; exact ih (c :: acc)

theorem splitCharAux_join (sep : Char) :
    ∀ (cs acc : List Char),
    joinSep sep (splitCharAux sep cs acc) = acc.reverse ++ cs := by
  intro cs
  induction cs with
  | nil => intro acc; simp [splitCharAux, joinSep]
  | cons c cs ih =>
    intro acc
    unfold splitCharAux
    by_cases hc : c = sep
    · rw [if_pos hc]
      obtain ⟨r, rs, hr⟩ := List.exists_cons_of_ne_nil (splitCharAux_ne_nil sep cs [])
      rw [hr]
      show acc.reverse ++ sep :: joinSep sep (r :: rs) = acc.reverse ++ c :: cs
      have h0 := ih []
      rw [hr] at h0
      simp only [List.reverse_nil, List.nil_append] at h0
      rw [h0, hc]
    · rw [if_neg hc]
      rw [ih (c :: acc)]
      simp

theorem char_eq_of_toNat {c d : Char} (h : c.toNat = d.toNat) : c = d :=
  Char.ext (UInt32.ext h)

theorem isDigitChar_toNat {c : Char} (h : isDigitChar c = true) :
    48 ≤ c.toNat ∧ c.toNat ≤ 57 := by
  unfold isDigitChar at h
  simp only [Bool.and_eq_true, decide_eq_true_eq] at h
  exact ⟨h.1, h.2⟩

theorem octet127 (cs : List Char) (hv : validOctet cs = true) :
    digitsToNat cs = 127 ↔ cs = ['1', '2', '7'] := by
  unfold validOctet at hv
  simp only [Bool.and_eq_true, Bool.or_eq_true, decide_eq_true_eq, beq_iff_eq,
    bne_iff_ne, List.all_eq_true, Bool.not_eq_true'] at hv
  obtain ⟨⟨⟨⟨hne, hall⟩, hlen⟩, _⟩, _⟩ := hv
  constructor
  · intro h127
    match cs, hne, hall, hlen, h127 with
    | [], hne, _, _, _ => simp at hne
    | [x], _, hall, _, h127 =>
      exfalso
      have hbx := isDigitChar_toNat (hall x (by simp))
      simp [digitsToNat, digitVal, List.foldl] at h127
      omega
    | [x, y], _, hall, _, h127 =>
      exfalso
      have hbx := isDigitChar_toNat (hall x (by simp))
      have hby := isDigitChar_toNat (hall y (by simp))
      simp [digitsToNat, digitVal, List.foldl] at h127
      omega
    | [x, y, z], _, hall, _, h127 =>
      have hbx := isDigitChar_toNat (hall x (by simp))
      have hby := isDigitChar_toNat (hall y (by simp))
      have hbz := isDigitChar_toNat (hall z (by simp))
      simp [digitsToNat, digitVal, List.foldl] at h127
      have hx : x = '1' := char_eq_of_toNat
        (by rw [show ('1' : Char).toNat = 49 from by decide]; omega)
      have hy : y = '2' := char_eq_of_toNat
        (by rw [show ('2' : Char).toNat = 50 from by decide]; omega)
      have hz : z = '7' := char_eq_of_toNat
        (by rw [show ('7' : Char).toNat = 55 from by decide]; omega)
      rw [hx, hy, hz]
    | x :: y :: z :: w :: t, _, _, hlen, _ =>
      simp at hlen
  · intro h
    rw [h]
    decide

theorem prefix127_iff (ip : String) (a b c d : List Char)
    (hsplit : splitCharAux '.' ip.data [] = [a, b, c, d])
    (hva : validOctet a = true) :
    pyStartsWith ip "127." = true ↔ a = ['1', '2', '7'] := by
  have hrec := splitCharAux_join '.' ip.data []
  rw [hsplit] at hrec
  simp only [List.reverse_nil, List.nil_append] at hrec
  have hip : ip.data = a ++ '.' :: (b ++ '.' :: (c ++ '.' :: d)) := by
    rw [← hrec]
    rfl
  unfold pyStartsWith
  rw [hip]
  rw [show ("127.").data = ['1', '2', '7', '.'] from rfl]
  unfold validOctet at hva
  simp only [Bool.and_eq_true, Bool.or_eq_true, decide_eq_true_eq, beq_iff_eq,
    bne_iff_ne, List.all_eq_true, Bool.not_eq_true'] at hva
  obtain ⟨⟨⟨⟨hne, _⟩, hlen⟩, _⟩, _⟩ := hva
  match a, hne, hlen with
  | [], hne, _ => simp at hne
  | [x], _, _ => simp [List.isPrefixOf_iff_prefix, List.cons_prefix_cons]
  | [x, y], _, _ => simp [List.isPrefixOf_iff_prefix, List.cons_prefix_cons]
  | [x, y, z], _, _ =>
    simp [List.isPrefixOf_iff_prefix, List.cons_prefix_cons]
    constructor
    · rintro ⟨h1, h2, h3⟩
      exact ⟨h1.symm, h2.symm, h3.symm⟩
    · rintro ⟨h1, h2, h3⟩
      exact ⟨h1.symm, h2.symm, h3.symm⟩
  | x :: y :: z :: w :: t, _, hlen =>
    simp at hlen

/-- C6 amended: restricted to remote ips that are canonical dotted-quad
    IPv4 addresses or the IPv6 loopback literal `::1`, both classifiers
    (`commIsLocalIp` of the communication grapher and `portDepIsLocalIp`
    of the port-dependency mapper) agree exactly with the spec's rule
    "local iff in `127.0.0.0/8` or `::1`".  The unrestricted claim is
    false: `commIsLocalIp` also accepts the hostname `"localhost"`
    (see the counterexample). -/
theorem C6_local_classification :
    ∀ ip : String, (parseIPv4 ip).isSome = true ∨ ip = "::1" →
      commIsLocalIp ip = specIsLoopback ip ∧
      portDepIsLocalIp ip = specIsLoopback ip := by
  intro ip h
  rcases h with hsome | h1
  · cases hp0 : parseIPv4 ip with
    | none => rw [hp0] at hsome; simp at hsome
    | some o =>
      have hp := hp0
      unfold parseIPv4 at hp
      split at hp
      · rename_i a b c d hsplit
        split at hp
        · rename_i hcond
          simp only [Bool.and_eq_true] at hcond
          obtain ⟨⟨⟨hva, hvb⟩, hvc⟩, hvd⟩ := hcond
          rw [Option.some.injEq] at hp
          have ho1 : o.1 = digitsToNat a := by rw [← hp]
          have hiff : pyStartsWith ip "127." = true ↔ o.1 = 127 := by
            constructor
            · intro hpre
              rw [ho1]
              exact (octet127 a hva).2
                ((prefix127_iff ip a b c d hsplit hva).1 hpre)
            · intro h127
              rw [ho1] at h127
              exact (prefix127_iff ip a b c d hsplit hva).2
                ((octet127 a hva).1 h127)
          have hne1 : ip ≠ "::1" := by
            intro he
            rw [he] at hp0
            rw [show parseIPv4 "::1" = none from by decide] at hp0
            cases hp0
          have hneL : ip ≠ "localhost" := by
            intro he
            rw [he] at hp0
            rw [show parseIPv4 "localhost" = none from by decide] at hp0
            cases hp0
          cases hpre : pyStartsWith ip "127." with
          | true =>
            have h127 := hiff.1 hpre
            constructor
            · unfold commIsLocalIp specIsLoopback
              rw [hp0, hpre]
              simp [hne1, hneL, h127]
            · unfold portDepIsLocalIp specIsLoopback
              rw [hp0, hpre]
              simp [hne1, h127]
          | false =>
            have hno : o.1 ≠ 127 := by
              intro h127
              have := hiff.2 h127
              rw [hpre] at this
              cases this
            have h1271 : ip ≠ "127.0.0.1" := by
              intro he
              rw [he] at hpre
              exact absurd hpre (by decide)
            constructor
            · unfold commIsLocalIp specIsLoopback
              rw [hp0, hpre]
              simp [hne1, hneL, hno, h1271]
            · unfold portDepIsLocalIp specIsLoopback
              rw [hp0, hpre]
              simp [hne1, hno]
        · simp at hp
      · simp at hp
  · subst h1
    exact ⟨by decide, by decide⟩

theorem C6_local_classification_witness :
    commIsLocalIp "127.0.0.5" = specIsLoopback "127.0.0.5" ∧
    portDepIsLocalIp "127.0.0.5" = specIsLoopback "127.0.0.5" :=
  C6_local_classification "127.0.0.5" (Or.inl (by decide))

/-- C6, counterexample: the communication grapher also classifies the
    hostname string `"localhost"` as local, although it is neither an
    address in `127.0.0.0/8` (it does not even parse as IPv4) nor the
    IPv6 loopback `::1`, so "local iff loopback ip" fails as stated. -/
theorem C6_counterexample :
    commIsLocalIp "localhost" = true ∧ specIsLoopback "localhost" = false ∧
    parseIPv4 "localhost" = none := by
  refine ⟨?_, ?_, ?_⟩ <;> decide
